import Mathlib

/-!
Verification of the trademark-mcp-server tool layer.

The development shallowly embeds the five MCP tools of `src/index.ts`
(trademark_search_by_serial, trademark_status, trademark_image,
trademark_documents, trademark_search_by_registration) and the plain
HTTP front end of `src/server.ts`.  Network access is modelled by an
explicit `upstream` function from requests to outcomes, and every tool
returns the list of requests it issued next to its textual result, so
"performs zero network calls" is a provable statement.  JavaScript's
`JSON.parse` / `JSON.stringify(v, null, 2)` pair is modelled by an
executable printer and parser over a JSON value type (numbers are
modelled as integers), together with a proved round-trip theorem.
-/

namespace TrademarkMcp

/-! ## JSON value model

Model of the JavaScript JSON values handled by the server.  JSON numbers
are modelled as integers (the bodies the tools re-serialize are treated
at integer precision). -/

mutual
inductive Json where
  | null : Json
  | bool (b : Bool) : Json
  | num (n : Int) : Json
  | str (s : String) : Json
  | arr (elems : JsonList) : Json
  | obj (mems : JsonMems) : Json
inductive JsonList where
  | nil : JsonList
  | cons (hd : Json) (tl : JsonList) : JsonList
inductive JsonMems where
  | nil : JsonMems
  | cons (key : String) (val : Json) (tl : JsonMems) : JsonMems
end

/-! ## Decimal printing of integers (JavaScript number-to-string on integers) -/

def digCh (n : Nat) : Char := Char.ofNat (48 + n)

def natDigsAux : Nat → Nat → List Char
  | 0, _ => []
  | fuel + 1, n => if n < 10 then [digCh n] else natDigsAux fuel (n / 10) ++ [digCh (n % 10)]

def natDigs (n : Nat) : List Char := natDigsAux (n + 1) n

def intDigs (n : Int) : List Char :=
  if n < 0 then '-' :: natDigs n.natAbs else natDigs n.natAbs

/-! ## String escaping (JSON.stringify string quoting) -/

def hexCh (n : Nat) : Char := if n < 10 then Char.ofNat (48 + n) else Char.ofNat (87 + n)

def escCharL (c : Char) : List Char :=
  if c = '"' then ['\\', '"']
  else if c = '\\' then ['\\', '\\']
  else if c = '\x08' then ['\\', 'b']
  else if c = '\x0c' then ['\\', 'f']
  else if c = '\n' then ['\\', 'n']
  else if c = '\r' then ['\\', 'r']
  else if c = '\t' then ['\\', 't']
  else if c.toNat < 32 then ['\\', 'u', '0', '0', hexCh (c.toNat / 16), hexCh (c.toNat % 16)]
  else [c]

def escL : List Char → List Char
  | [] => []
  | c :: cs => escCharL c ++ escL cs

def qstrL (k : String) : List Char := '"' :: escL k.data ++ ['"']

/-! ## Pretty printer: model of JSON.stringify(v, null, 2) -/

def indentC (d : Nat) : List Char := List.replicate (2 * d) ' '

mutual
def printV : Nat → Json → List Char
  | _, .null => "null".data
  | _, .bool true => "true".data
  | _, .bool false => "false".data
  | _, .num n => intDigs n
  | _, .str s => qstrL s
  | _, .arr .nil => ['[', ']']
  | d, .arr (.cons x tl) =>
    '[' :: '\n' :: (indentC (d + 1) ++ printV (d + 1) x ++ printEtail (d + 1) tl) ++
      '\n' :: indentC d ++ [']']
  | _, .obj .nil => ['\x7b', '\x7d']
  | d, .obj (.cons k v tl) =>
    '\x7b' :: '\n' :: (indentC (d + 1) ++ qstrL k ++ ':' :: ' ' :: printV (d + 1) v ++
      printMtail (d + 1) tl) ++ '\n' :: indentC d ++ ['\x7d']
def printEtail : Nat → JsonList → List Char
  | _, .nil => []
  | d, .cons y tl => ',' :: '\n' :: indentC d ++ printV d y ++ printEtail d tl
def printMtail : Nat → JsonMems → List Char
  | _, .nil => []
  | d, .cons k v tl =>
    ',' :: '\n' :: indentC d ++ qstrL k ++ ':' :: ' ' :: printV d v ++ printMtail d tl
end

def jsonStringify2 (j : Json) : String := ⟨printV 0 j⟩

/-! ## Compact printer: model of one-argument JSON.stringify (used by server.ts) -/

mutual
def printVC : Json → List Char
  | .null => "null".data
  | .bool true => "true".data
  | .bool false => "false".data
  | .num n => intDigs n
  | .str s => qstrL s
  | .arr .nil => ['[', ']']
  | .arr (.cons x tl) => '[' :: printVC x ++ printECtail tl ++ [']']
  | .obj .nil => ['\x7b', '\x7d']
  | .obj (.cons k v tl) => '\x7b' :: qstrL k ++ ':' :: printVC v ++ printMCtail tl ++ ['\x7d']
def printECtail : JsonList → List Char
  | .nil => []
  | .cons y tl => ',' :: printVC y ++ printECtail tl
def printMCtail : JsonMems → List Char
  | .nil => []
  | .cons k v tl => ',' :: qstrL k ++ ':' :: printVC v ++ printMCtail tl
end

def jsonStringifyC (j : Json) : String := ⟨printVC j⟩

/-! ## Character utilities -/

def isWs (c : Char) : Bool := c == ' ' || c == '\t' || c == '\n' || c == '\r'

def skipWs : List Char → List Char
  | [] => []
  | c :: cs => if isWs c then skipWs cs else c :: cs

def isDig (c : Char) : Bool := 48 ≤ c.toNat && c.toNat ≤ 57

def dval (c : Char) : Nat := c.toNat - 48

def headIs (c : Char) : List Char → Bool
  | [] => false
  | x :: _ => x == c

def tailOf : List Char → List Char
  | [] => []
  | _ :: t => t

/-- Test whether a list starts with the pattern given as first argument. -/
def chStarts : List Char → List Char → Bool
  | [], _ => true
  | _ :: _, [] => false
  | p :: ps, c :: cs => p == c && chStarts ps cs

/-- Test whether the pattern (second argument) occurs somewhere in the list
(model of JavaScript String.prototype.includes). -/
def chHas : List Char → List Char → Bool
  | [], pat => chStarts pat []
  | s@(_ :: tl), pat => chStarts pat s || chHas tl pat

def strIncludes (s pat : String) : Bool := chHas s.data pat.data

/-- Model of JavaScript String.prototype.substring(0, 8). -/
def substr8 (s : String) : String := ⟨s.data.take 8⟩

/-! ## Number reading (JSON.parse integer fragment) -/

def readNatAux (acc : Nat) : List Char → Nat × List Char
  | [] => (acc, [])
  | c :: cs => if isDig c then readNatAux (acc * 10 + dval c) cs else (acc, c :: cs)

def readNum : List Char → Option (Nat × List Char)
  | [] => none
  | c :: cs => if isDig c then some (readNatAux (dval c) cs) else none

/-- The list does not start with a decimal digit (so a preceding maximal
digit run cannot be extended into it). -/
def noDigHead : List Char → Bool
  | [] => true
  | c :: _ => !isDig c

/-! ## String literal reading (JSON.parse string fragment) -/

def unescCh (c : Char) : Option Char :=
  if c = '"' then some '"'
  else if c = '\\' then some '\\'
  else if c = '/' then some '/'
  else if c = 'b' then some '\x08'
  else if c = 'f' then some '\x0c'
  else if c = 'n' then some '\n'
  else if c = 'r' then some '\r'
  else if c = 't' then some '\t'
  else none

def hexVal (c : Char) : Option Nat :=
  if 48 ≤ c.toNat ∧ c.toNat ≤ 57 then some (c.toNat - 48)
  else if 97 ≤ c.toNat ∧ c.toNat ≤ 102 then some (c.toNat - 87)
  else if 65 ≤ c.toNat ∧ c.toNat ≤ 70 then some (c.toNat - 55)
  else none

def parseStrAux : List Char → List Char → Option (String × List Char)
  | _, [] => none
  | acc, c :: r =>
    if c = '"' then some (⟨acc.reverse⟩, r)
    else if c = '\\' then
      match r with
      | 'u' :: a :: b :: c' :: d :: r' =>
        match hexVal a, hexVal b, hexVal c', hexVal d with
        | some va, some vb, some vc, some vd =>
          parseStrAux (Char.ofNat (((va * 16 + vb) * 16 + vc) * 16 + vd) :: acc) r'
        | _, _, _, _ => none
      | e :: r' =>
        match unescCh e with
        | some ch => parseStrAux (ch :: acc) r'
        | none => none
      | [] => none
    else parseStrAux (c :: acc) r

/-! ## Value parser: model of JSON.parse (integer numbers) -/

/-- Head dispatch of the value parser on whitespace-stripped input; the
array-element and object-member continuations are passed as parameters. -/
def parseValCore (pe : List Char → Option (JsonList × List Char))
    (pm : List Char → Option (JsonMems × List Char)) :
    List Char → Option (Json × List Char)
  | [] => none
  | c :: cs =>
    if c = 'n' then if chStarts "ull".data cs then some (.null, cs.drop 3) else none
    else if c = 't' then if chStarts "rue".data cs then some (.bool true, cs.drop 3) else none
    else if c = 'f' then if chStarts "alse".data cs then some (.bool false, cs.drop 4) else none
    else if c = '"' then
      match parseStrAux [] cs with
      | some (s, r) => some (.str s, r)
      | none => none
    else if c = '[' then
      let r := skipWs cs
      if headIs ']' r then some (.arr .nil, tailOf r)
      else
        match pe r with
        | some (xs, r') => some (.arr xs, r')
        | none => none
    else if c = '\x7b' then
      let r := skipWs cs
      if headIs '\x7d' r then some (.obj .nil, tailOf r)
      else
        match pm r with
        | some (ms, r') => some (.obj ms, r')
        | none => none
    else if c = '-' then
      match readNum cs with
      | some (m, r) => some (.num (-(m : Int)), r)
      | none => none
    else
      match readNum (c :: cs) with
      | some (m, r) => some (.num (m : Int), r)
      | none => none

mutual
def parseVal : Nat → List Char → Option (Json × List Char)
  | 0, _ => none
  | fuel + 1, input => parseValCore (parseElems fuel) (parseMems fuel) (skipWs input)
def parseElems : Nat → List Char → Option (JsonList × List Char)
  | 0, _ => none
  | fuel + 1, s =>
    match parseVal fuel s with
    | none => none
    | some (j, r) =>
      match skipWs r with
      | ',' :: r' =>
        match parseElems fuel r' with
        | some (xs, r'') => some (.cons j xs, r'')
        | none => none
      | ']' :: r' => some (.cons j .nil, r')
      | _ => none
def parseMems : Nat → List Char → Option (JsonMems × List Char)
  | 0, _ => none
  | fuel + 1, s =>
    match skipWs s with
    | '"' :: r =>
      match parseStrAux [] r with
      | none => none
      | some (k, r1) =>
        match skipWs r1 with
        | ':' :: r2 =>
          match parseVal fuel r2 with
          | none => none
          | some (v, r3) =>
            match skipWs r3 with
            | ',' :: r4 =>
              match parseMems fuel r4 with
              | some (ms, r5) => some (.cons k v ms, r5)
              | none => none
            | '\x7d' :: r4 => some (.cons k v .nil, r4)
            | _ => none
        | _ => none
    | _ => none
end

/-! Fuel needed by the value parser on the printed form of a JSON value. -/

mutual
def neededV : Json → Nat
  | .null => 1
  | .bool _ => 1
  | .num _ => 1
  | .str _ => 1
  | .arr xs => 1 + neededL xs
  | .obj ms => 1 + neededM ms
def neededL : JsonList → Nat
  | .nil => 0
  | .cons x tl => 1 + max (neededV x) (neededL tl)
def neededM : JsonMems → Nat
  | .nil => 0
  | .cons _ v tl => 1 + max (neededV v) (neededM tl)
end

def parseJson (s : String) : Option Json :=
  match parseVal (s.data.length + 1) s.data with
  | some (j, r) => if skipWs r = [] then some j else none
  | none => none

/-! ## HTML title extraction

Model of `htmlContent.match(/<title>(.*?)<\/title>/i)` in the status tool:
leftmost starting position at which the whole pattern can match, shortest
content, the dot not crossing line terminators, tag letters matched case
insensitively. -/

def lowerCh (c : Char) : Char :=
  if 65 ≤ c.toNat ∧ c.toNat ≤ 90 then Char.ofNat (c.toNat + 32) else c

def ciStarts : List Char → List Char → Bool
  | [], _ => true
  | _ :: _, [] => false
  | p :: ps, c :: cs => lowerCh p == lowerCh c && ciStarts ps cs

def ciHas : List Char → List Char → Bool
  | [], pat => ciStarts pat []
  | s@(_ :: tl), pat => ciStarts pat s || ciHas tl pat

/-- Case-insensitive (ASCII) equality of two character lists. -/
def ciEqL : List Char → List Char → Bool
  | [], [] => true
  | p :: ps, c :: cs => lowerCh p == lowerCh c && ciEqL ps cs
  | _, _ => false

def isLineTerm (c : Char) : Bool := c == '\n' || c == '\r' || c == '\u2028' || c == '\u2029'

def openTagL : List Char := "<title>".data

def closeTagL : List Char := "</title>".data

def scanClose : List Char → List Char → Option (List Char × List Char)
  | _, [] => none
  | acc, ch :: cs =>
    if ciStarts closeTagL (ch :: cs) then some (acc.reverse, (ch :: cs).drop 8)
    else if isLineTerm ch then none
    else scanClose (ch :: acc) cs

def findTitle : List Char → Option (List Char)
  | [] => none
  | c :: cs =>
    if ciStarts openTagL (c :: cs) then
      match scanClose [] ((c :: cs).drop 7) with
      | some (content, _) => some content
      | none => findTitle cs
    else findTitle cs

def extractTitle (s : String) : Option String := (findTitle s.data).map fun l => ⟨l⟩

/-! ## Fetch model

An upstream call either yields a response (any status) or fails with a
network-level exception message.  Each tool records the requests it issued. -/

structure FetchRequest where
  url : String
  method : String
  headers : List (String × String)
deriving DecidableEq

structure FetchResponse where
  status : Nat
  statusText : String
  body : String
deriving DecidableEq

def FetchResponse.ok (r : FetchResponse) : Bool := 200 ≤ r.status && r.status < 300

abbrev Upstream := FetchRequest → Except String FetchResponse

inductive RespFormat where
  | json : RespFormat
  | xml : RespFormat
deriving DecidableEq

/-! ## Tool layer from src/index.ts -/

def TSDR_BASE_URL : String := "https://tsdrapi.uspto.gov/ts/cd"

/-- Truthiness of the USPTO_API_KEY environment value (unset or empty is falsy). -/
def envTruthy : Option String → Bool
  | none => false
  | some s => !s.isEmpty

def apiKeyMissingMsg : String :=
  "❌ USPTO API key not configured. Please set the USPTO_API_KEY environment variable with your API key from https://account.uspto.gov/api-manager/"

def checkApiKey (apiKey : Option String) : Option String :=
  if envTruthy apiKey then none else some apiKeyMissingMsg

def getHeaders (apiKey : Option String) : List (String × String) :=
  [("User-Agent", "trademark-mcp-server/1.0.0")] ++
    (match apiKey with
     | some k => if k.isEmpty then [] else [("USPTO-API-KEY", k)]
     | none => [])

def keyDisplay (apiKey : Option String) : String :=
  if envTruthy apiKey then substr8 ((apiKey).getD "") ++ "..." else "Not set"

def authMessage (apiKey : Option String) : String :=
  "🔑 USPTO API Authentication Issue\n\nThe USPTO TSDR API is rejecting our API key. This could be due to:\n\n1. **API Key Activation Delay**: New keys may need 24-48 hours to activate\n2. **Endpoint Restrictions**: Individual record endpoints may be temporarily disabled\n3. **Authentication Method**: The API might require a different authentication format\n\n**Your API Key**: "
    ++ keyDisplay apiKey ++
  "\n\n**Next Steps**:\n• Contact USPTO support: APIhelp@uspto.gov \n• Include your API key and this error message\n• Ask specifically about individual record endpoint access\n\n**Alternative**: Try bulk data download endpoints if available."

def apiKeyMarker : String := "need to register for an API key"

def genericUpstreamMsg (status : Nat) (statusText body : String) : String :=
  "USPTO API returned " ++ toString status ++ ": " ++ statusText ++ ". Error: " ++ body

/-- Modelled runtime text of the JSON parse exception raised by response.json()
on an invalid body; no claim depends on its exact wording. -/
def jsonSyntaxErrorMsg : String := "Unexpected token in JSON"

/-- Handler of trademark_search_by_serial (src/index.ts lines 76-125). -/
def searchBySerialExecute (apiKey : Option String) (serialNumber : String)
    (format : RespFormat) (upstream : Upstream) : String × List FetchRequest :=
  match checkApiKey apiKey with
  | some e => (e, [])
  | none =>
    let fileExtension := match format with | .json => "json" | .xml => "xml"
    let url := TSDR_BASE_URL ++ "/casestatus/sn" ++ serialNumber ++ "/info." ++ fileExtension
    let req : FetchRequest := ⟨url, "GET", getHeaders apiKey⟩
    match upstream req with
    | .error m => ("Error fetching trademark data: " ++ m, [req])
    | .ok resp =>
      if resp.ok then
        match format with
        | .json =>
          match parseJson resp.body with
          | some jsonData => (jsonStringify2 jsonData, [req])
          | none => ("Error fetching trademark data: " ++ jsonSyntaxErrorMsg, [req])
        | .xml => (resp.body, [req])
      else
        if strIncludes resp.body apiKeyMarker then
          ("Error fetching trademark data: " ++ authMessage apiKey, [req])
        else
          ("Error fetching trademark data: " ++
            genericUpstreamMsg resp.status resp.statusText resp.body, [req])

/-- Handler of trademark_status (src/index.ts lines 140-186). -/
def statusExecute (apiKey : Option String) (serialNumber : String)
    (upstream : Upstream) : String × List FetchRequest :=
  match checkApiKey apiKey with
  | some e => (e, [])
  | none =>
    let url := TSDR_BASE_URL ++ "/casestatus/sn" ++ serialNumber ++ "/content"
    let req : FetchRequest := ⟨url, "GET", getHeaders apiKey⟩
    match upstream req with
    | .error m => ("Error fetching trademark status: " ++ m, [req])
    | .ok resp =>
      if resp.ok then
        let title := (extractTitle resp.body).getD "No title found"
        ("Trademark Status Report for Serial Number: " ++ serialNumber ++
          "\n\nTitle: " ++ title ++ "\n\nFull HTML content available at: " ++ url ++
          "\n\nNote: This tool returns the HTML content from the USPTO. For structured data, use trademark_search_by_serial instead.",
          [req])
      else
        if strIncludes resp.body apiKeyMarker then
          ("Error fetching trademark status: " ++ authMessage apiKey, [req])
        else
          ("Error fetching trademark status: " ++
            genericUpstreamMsg resp.status resp.statusText resp.body, [req])

/-- Handler of trademark_image (src/index.ts lines 201-224). -/
def imageExecute (apiKey : Option String) (serialNumber : String)
    (upstream : Upstream) : String × List FetchRequest :=
  match checkApiKey apiKey with
  | some e => (e, [])
  | none =>
    let imageUrl := TSDR_BASE_URL ++ "/rawImage/" ++ serialNumber
    let req : FetchRequest := ⟨imageUrl, "HEAD", getHeaders apiKey⟩
    match upstream req with
    | .error m => ("Error retrieving trademark image: " ++ m, [req])
    | .ok resp =>
      if resp.ok then
        ("Trademark image URL for serial number " ++ serialNumber ++ ": " ++ imageUrl ++
          "\n\nYou can view this image by opening the URL in a web browser.", [req])
      else
        ("No image found for trademark serial number: " ++ serialNumber, [req])

/-- Handler of trademark_documents (src/index.ts lines 239-252); it never fetches. -/
def documentsExecute (apiKey : Option String) (serialNumber : String) :
    String × List FetchRequest :=
  match checkApiKey apiKey with
  | some e => (e, [])
  | none =>
    let documentsUrl := TSDR_BASE_URL ++ "/casedocs/bundle.pdf?sn=" ++ serialNumber
    ("Document bundle URL for trademark serial number " ++ serialNumber ++ ": " ++
      documentsUrl ++
      "\n\nThis URL provides a PDF containing all documents related to this trademark application.\n\nNote: Document downloads are rate-limited to 4 requests per minute per API key.",
      [])

/-- Handler of trademark_search_by_registration (src/index.ts lines 268-317). -/
def searchByRegistrationExecute (apiKey : Option String) (registrationNumber : String)
    (format : RespFormat) (upstream : Upstream) : String × List FetchRequest :=
  match checkApiKey apiKey with
  | some e => (e, [])
  | none =>
    let fileExtension := match format with | .json => "json" | .xml => "xml"
    let url := TSDR_BASE_URL ++ "/casestatus/rn" ++ registrationNumber ++ "/info." ++ fileExtension
    let req : FetchRequest := ⟨url, "GET", getHeaders apiKey⟩
    match upstream req with
    | .error m => ("Error fetching trademark data by registration number: " ++ m, [req])
    | .ok resp =>
      if resp.ok then
        match format with
        | .json =>
          match parseJson resp.body with
          | some jsonData => (jsonStringify2 jsonData, [req])
          | none => ("Error fetching trademark data by registration number: " ++ jsonSyntaxErrorMsg, [req])
        | .xml => (resp.body, [req])
      else
        if strIncludes resp.body apiKeyMarker then
          ("Error fetching trademark data by registration number: " ++ authMessage apiKey, [req])
        else
          ("Error fetching trademark data by registration number: " ++
            genericUpstreamMsg resp.status resp.statusText resp.body, [req])

/-! ## Parameter validation and dispatch

The zod schemas declared per tool are `z.string().min(8).max(8)` for
serialNumber and `z.string().min(7).max(8)` for registrationNumber.
Modelled from the spec: the surrounding FastMCP dispatcher runs the
declared schema before the handler and surfaces a validation failure
message naming the field and the violated constraint; on failure the
handler is never invoked. -/

def serialValidationMsg : String := "serialNumber must be exactly 8 characters"

def regValidationMsg : String := "registrationNumber must be 7 to 8 characters"

def runSearchBySerial (apiKey : Option String) (serialNumber : String)
    (format : RespFormat) (upstream : Upstream) : String × List FetchRequest :=
  if 8 ≤ serialNumber.length ∧ serialNumber.length ≤ 8 then
    searchBySerialExecute apiKey serialNumber format upstream
  else (serialValidationMsg, [])

def runStatus (apiKey : Option String) (serialNumber : String)
    (upstream : Upstream) : String × List FetchRequest :=
  if 8 ≤ serialNumber.length ∧ serialNumber.length ≤ 8 then
    statusExecute apiKey serialNumber upstream
  else (serialValidationMsg, [])

def runImage (apiKey : Option String) (serialNumber : String)
    (upstream : Upstream) : String × List FetchRequest :=
  if 8 ≤ serialNumber.length ∧ serialNumber.length ≤ 8 then
    imageExecute apiKey serialNumber upstream
  else (serialValidationMsg, [])

def runDocuments (apiKey : Option String) (serialNumber : String) :
    String × List FetchRequest :=
  if 8 ≤ serialNumber.length ∧ serialNumber.length ≤ 8 then
    documentsExecute apiKey serialNumber
  else (serialValidationMsg, [])

def runSearchByRegistration (apiKey : Option String) (registrationNumber : String)
    (format : RespFormat) (upstream : Upstream) : String × List FetchRequest :=
  if 7 ≤ registrationNumber.length ∧ registrationNumber.length ≤ 8 then
    searchByRegistrationExecute apiKey registrationNumber format upstream
  else (regValidationMsg, [])

/-! ## HTTP front end from src/server.ts -/

inductive RouteResult where
  | reply (status : Nat) (contentType : String) (body : String) : RouteResult
  | proxyMcp : RouteResult
deriving DecidableEq

def healthBody (now : String) : String :=
  jsonStringifyC (.obj (.cons "status" (.str "healthy") (.cons "timestamp" (.str now)
    (.cons "version" (.str "1.0.0") (.cons "service" (.str "trademark-mcp-server") .nil)))))

def rootBody : String :=
  jsonStringifyC (.obj (.cons "name" (.str "trademark-mcp-server")
    (.cons "version" (.str "1.0.0")
    (.cons "description" (.str "USPTO Trademark MCP Server")
    (.cons "endpoints" (.obj (.cons "health" (.str "/health")
      (.cons "mcp" (.str "/mcp") .nil))) .nil)))))

def notFoundBody : String := jsonStringifyC (.obj (.cons "error" (.str "Not found") .nil))

/-- Request handler of the plain HTTP server (src/server.ts lines 8-102);
`now` stands for the timestamp taken when answering /health. -/
def handleHttpRequest (now method pathname : String) : RouteResult :=
  if method = "OPTIONS" then .reply 200 "" ""
  else if pathname = "/health" then .reply 200 "application/json" (healthBody now)
  else if pathname = "/" then .reply 200 "application/json" rootBody
  else if pathname = "/mcp" then .proxyMcp
  else .reply 404 "application/json" notFoundBody

/-! ## Generic list and string lemmas -/

theorem strData_append (a b : String) : (a ++ b).data = a.data ++ b.data :=
  String.data_append a b

theorem strMk_data (s : String) : (⟨s.data⟩ : String) = s := by
  cases s
  rfl

theorem strAppend_assoc (a b c : String) : (a ++ b) ++ c = a ++ (b ++ c) := by
  cases a with
  | mk la =>
    cases b with
    | mk lb =>
      cases c with
      | mk lc =>
        show (⟨(la ++ lb) ++ lc⟩ : String) = ⟨la ++ (lb ++ lc)⟩
        rw [List.append_assoc]

theorem chStarts_self_append (p r : List Char) : chStarts p (p ++ r) = true := by
  induction p with
  | nil => rfl
  | cons c cs ih => simp [chStarts, ih]

theorem chHas_of_starts (s pat : List Char) (h : chStarts pat s = true) :
    chHas s pat = true := by
  cases s with
  | nil => simpa [chHas] using h
  | cons c tl => simp [chHas, h]

theorem chHas_append_left (pre s pat : List Char) (h : chHas s pat = true) :
    chHas (pre ++ s) pat = true := by
  induction pre with
  | nil => simpa using h
  | cons c tl ih => simp [chHas, ih]

theorem chHas_middle (a p b : List Char) : chHas (a ++ (p ++ b)) p = true :=
  chHas_append_left a _ _ (chHas_of_starts _ _ (chStarts_self_append p b))

theorem strIncludes_of_data (s p : String) (x y : List Char)
    (h : s.data = x ++ (p.data ++ y)) : strIncludes s p = true := by
  rw [strIncludes, h]
  exact chHas_middle x p.data y

/-! ## Whitespace lemmas -/

theorem skipWs_not_ws (c : Char) (s : List Char) (h : isWs c = false) :
    skipWs (c :: s) = c :: s := by
  simp [skipWs, h]

theorem skipWs_ws_append (l : List Char) (hl : ∀ c ∈ l, isWs c = true) (s : List Char) :
    skipWs (l ++ s) = skipWs s := by
  induction l with
  | nil => rfl
  | cons c tl ih =>
    have hc : isWs c = true := hl c (by simp)
    simp only [List.cons_append, skipWs, hc, if_true]
    exact ih fun x hx => hl x (by simp [hx])

theorem skipWs_indent_append (d : Nat) (s : List Char) :
    skipWs (indentC d ++ s) = skipWs s := by
  refine skipWs_ws_append _ (fun c hc => ?_) s
  have hc' : c = ' ' := List.eq_of_mem_replicate (by simpa [indentC] using hc)
  rw [hc']
  rfl

theorem skipWs_newline (s : List Char) : skipWs ('\n' :: s) = skipWs s := rfl

/-! ## Decimal digit lemmas -/

theorem isDig_digCh (n : Nat) (h : n < 10) : isDig (digCh n) = true := by
  interval_cases n <;> decide

theorem dval_digCh (n : Nat) (h : n < 10) : dval (digCh n) = n := by
  interval_cases n <;> decide

theorem natDigsAux_all_dig (fuel : Nat) : ∀ n : Nat, ∀ c ∈ natDigsAux fuel n, isDig c = true := by
  induction fuel with
  | zero => intro n c hc; simp [natDigsAux] at hc
  | succ fuel ih =>
    intro n c hc
    rw [natDigsAux] at hc
    by_cases h : n < 10
    · rw [if_pos h] at hc
      simp only [List.mem_singleton] at hc
      rw [hc]; exact isDig_digCh n h
    · rw [if_neg h] at hc
      rcases List.mem_append.1 hc with h1 | h1
      · exact ih _ c h1
      · simp only [List.mem_singleton] at h1
        rw [h1]; exact isDig_digCh _ (Nat.mod_lt n (by norm_num))

theorem natDigsAux_ne_nil (fuel n : Nat) : natDigsAux (fuel + 1) n ≠ [] := by
  rw [natDigsAux]
  by_cases h : n < 10 <;> simp [h]

theorem readNatAux_digits (xs : List Char) : ∀ (acc : Nat) (rest : List Char),
    (∀ c ∈ xs, isDig c = true) →
    readNatAux acc (xs ++ rest) =
      readNatAux (xs.foldl (fun a c => a * 10 + dval c) acc) rest := by
  induction xs with
  | nil => intro acc rest _; rfl
  | cons c tl ih =>
    intro acc rest h
    have hc := h c (by simp)
    rw [List.cons_append, readNatAux, if_pos hc, List.foldl_cons]
    exact ih _ rest fun x hx => h x (by simp [hx])

theorem readNatAux_stop (acc : Nat) (rest : List Char) (h : noDigHead rest = true) :
    readNatAux acc rest = (acc, rest) := by
  cases rest with
  | nil => rfl
  | cons c cs =>
    have hc : isDig c = false := by simpa [noDigHead] using h
    simp [readNatAux, hc]

theorem foldlDig_acc (xs : List Char) : ∀ acc : Nat,
    xs.foldl (fun a c => a * 10 + dval c) acc =
      acc * 10 ^ xs.length + xs.foldl (fun a c => a * 10 + dval c) 0 := by
  induction xs with
  | nil => intro acc; simp
  | cons c tl ih =>
    intro acc
    simp only [List.foldl_cons, List.length_cons]
    rw [ih (acc * 10 + dval c), ih (0 * 10 + dval c)]
    ring

theorem natDigsAux_val (fuel : Nat) : ∀ n : Nat, n < 10 ^ fuel →
    (natDigsAux fuel n).foldl (fun a c => a * 10 + dval c) 0 = n := by
  induction fuel with
  | zero => intro n h; interval_cases n; rfl
  | succ fuel ih =>
    intro n h
    rw [natDigsAux]
    by_cases h10 : n < 10
    · rw [if_pos h10]
      simpa using dval_digCh n h10
    · have hlt : n / 10 < 10 ^ fuel := by
        rw [Nat.div_lt_iff_lt_mul (by norm_num : (0:Nat) < 10)]
        calc n < 10 ^ (fuel + 1) := h
        _ = 10 ^ fuel * 10 := by rw [pow_succ]
      rw [if_neg h10, List.foldl_append, ih (n / 10) hlt]
      have := dval_digCh (n % 10) (Nat.mod_lt n (by norm_num))
      simp only [List.foldl_cons, List.foldl_nil, this]
      omega

theorem lt_ten_pow_succ (n : Nat) : n < 10 ^ (n + 1) :=
  calc n < 2 ^ n := Nat.lt_two_pow n
  _ ≤ 10 ^ n := Nat.pow_le_pow_left (by norm_num) n
  _ ≤ 10 ^ (n + 1) := Nat.pow_le_pow_right (by norm_num) (by omega)

theorem natDigs_spec (n : Nat) : ∃ c cs, natDigs n = c :: cs ∧ isDig c = true ∧
    (∀ x ∈ cs, isDig x = true) ∧
    (c :: cs).foldl (fun a c => a * 10 + dval c) 0 = n := by
  have hne := natDigsAux_ne_nil n n
  rcases hd : natDigsAux (n + 1) n with _ | ⟨c, cs⟩
  · exact absurd hd hne
  · refine ⟨c, cs, by rw [natDigs, hd], ?_, ?_, ?_⟩
    · exact natDigsAux_all_dig (n + 1) n c (by rw [hd]; simp)
    · intro x hx
      exact natDigsAux_all_dig (n + 1) n x (by rw [hd]; simp [hx])
    · rw [← hd]
      exact natDigsAux_val (n + 1) n (lt_ten_pow_succ n)

theorem readNum_natDigs (n : Nat) (rest : List Char) (h : noDigHead rest = true) :
    readNum (natDigs n ++ rest) = some (n, rest) := by
  obtain ⟨c, cs, hd, hc, hcs, hval⟩ := natDigs_spec n
  rw [hd, List.cons_append, readNum, if_pos hc, readNatAux_digits cs (dval c) rest hcs,
    readNatAux_stop _ rest h]
  have : List.foldl (fun a c => a * 10 + dval c) (dval c) cs = n := by
    rw [← hval, List.foldl_cons]
    norm_num
  rw [this]

/-! ## String escape round trip -/

theorem hexVal_hexCh (m : Nat) (h : m < 16) : hexVal (hexCh m) = some m := by
  interval_cases m <;> decide

theorem parseStrAux_plain (acc : List Char) (c : Char) (r : List Char)
    (h1 : c ≠ '"') (h2 : c ≠ '\\') :
    parseStrAux acc (c :: r) = parseStrAux (c :: acc) r := by
  rw [parseStrAux.eq_def]
  simp only []
  rw [if_neg h1, if_neg h2]

theorem parseStrAux_u (acc : List Char) (a b c' d : Char) (va vb vc vd : Nat) (R : List Char)
    (ha : hexVal a = some va) (hb : hexVal b = some vb) (hc : hexVal c' = some vc)
    (hd : hexVal d = some vd) :
    parseStrAux acc (['\\', 'u', a, b, c', d] ++ R) =
      parseStrAux (Char.ofNat (((va * 16 + vb) * 16 + vc) * 16 + vd) :: acc) R := by
  simp [parseStrAux, ha, hb, hc, hd]

theorem parseStrAux_esc (l : List Char) : ∀ acc rest : List Char,
    parseStrAux acc (escL l ++ '"' :: rest) = some (⟨acc.reverse ++ l⟩, rest) := by
  induction l with
  | nil =>
    intro acc rest
    simp only [escL, List.nil_append, List.append_nil]
    rw [parseStrAux.eq_def]
    simp
  | cons c l ih =>
    intro acc rest
    rw [escL, List.append_assoc]
    by_cases h1 : c = '"'
    · subst h1
      rw [show escCharL '"' = ['\\', '"'] from rfl,
        show ∀ (a r : List Char), parseStrAux a (['\\', '"'] ++ r) = parseStrAux ('"' :: a) r
          from fun _ _ => rfl, ih]
      simp
    · by_cases h2 : c = '\\'
      · subst h2
        rw [show escCharL '\\' = ['\\', '\\'] from rfl,
          show ∀ (a r : List Char), parseStrAux a (['\\', '\\'] ++ r) = parseStrAux ('\\' :: a) r
            from fun _ _ => rfl, ih]
        simp
      · by_cases h3 : c = '\x08'
        · subst h3
          rw [show escCharL '\x08' = ['\\', 'b'] from rfl,
            show ∀ (a r : List Char), parseStrAux a (['\\', 'b'] ++ r) = parseStrAux ('\x08' :: a) r
              from fun _ _ => rfl, ih]
          simp
        · by_cases h4 : c = '\x0c'
          · subst h4
            rw [show escCharL '\x0c' = ['\\', 'f'] from rfl,
              show ∀ (a r : List Char), parseStrAux a (['\\', 'f'] ++ r) = parseStrAux ('\x0c' :: a) r
                from fun _ _ => rfl, ih]
            simp
          · by_cases h5 : c = '\n'
            · subst h5
              rw [show escCharL '\n' = ['\\', 'n'] from rfl,
                show ∀ (a r : List Char), parseStrAux a (['\\', 'n'] ++ r) = parseStrAux ('\n' :: a) r
                  from fun _ _ => rfl, ih]
              simp
            · by_cases h6 : c = '\r'
              · subst h6
                rw [show escCharL '\r' = ['\\', 'r'] from rfl,
                  show ∀ (a r : List Char), parseStrAux a (['\\', 'r'] ++ r) = parseStrAux ('\r' :: a) r
                    from fun _ _ => rfl, ih]
                simp
              · by_cases h7 : c = '\t'
                · subst h7
                  rw [show escCharL '\t' = ['\\', 't'] from rfl,
                    show ∀ (a r : List Char), parseStrAux a (['\\', 't'] ++ r) = parseStrAux ('\t' :: a) r
                      from fun _ _ => rfl, ih]
                  simp
                · by_cases h8 : c.toNat < 32
                  · have hesc : escCharL c =
                        ['\\', 'u', '0', '0', hexCh (c.toNat / 16), hexCh (c.toNat % 16)] := by
                      rw [escCharL, if_neg h1, if_neg h2, if_neg h3, if_neg h4, if_neg h5,
                        if_neg h6, if_neg h7, if_pos h8]
                    rw [hesc,
                      parseStrAux_u acc '0' '0' (hexCh (c.toNat / 16)) (hexCh (c.toNat % 16))
                        0 0 (c.toNat / 16) (c.toNat % 16) _ (by decide) (by decide)
                        (hexVal_hexCh _ (by omega)) (hexVal_hexCh _ (by omega))]
                    have hval : ((0 * 16 + 0) * 16 + c.toNat / 16) * 16 + c.toNat % 16
                        = c.toNat := by omega
                    rw [hval, Char.ofNat_toNat, ih]
                    simp
                  · have hesc : escCharL c = [c] := by
                      rw [escCharL, if_neg h1, if_neg h2, if_neg h3, if_neg h4, if_neg h5,
                        if_neg h6, if_neg h7, if_neg h8]
                    rw [hesc, List.singleton_append, parseStrAux_plain acc c _ h1 h2, ih]
                    simp

/-! ## Parser dispatch lemmas -/

theorem parseVal_succ (fuel : Nat) (input : List Char) :
    parseVal (fuel + 1) input = parseValCore (parseElems fuel) (parseMems fuel) (skipWs input) := rfl

theorem parseElems_succ (fuel : Nat) (s : List Char) :
    parseElems (fuel + 1) s =
      (match parseVal fuel s with
       | none => none
       | some (j, r) =>
         match skipWs r with
         | ',' :: r' =>
           match parseElems fuel r' with
           | some (xs, r'') => some (.cons j xs, r'')
           | none => none
         | ']' :: r' => some (.cons j .nil, r')
         | _ => none) := rfl

theorem parseMems_succ (fuel : Nat) (s : List Char) :
    parseMems (fuel + 1) s =
      (match skipWs s with
       | '"' :: r =>
         match parseStrAux [] r with
         | none => none
         | some (k, r1) =>
           match skipWs r1 with
           | ':' :: r2 =>
             match parseVal fuel r2 with
             | none => none
             | some (v, r3) =>
               match skipWs r3 with
               | ',' :: r4 =>
                 match parseMems fuel r4 with
                 | some (ms, r5) => some (.cons k v ms, r5)
                 | none => none
               | '\x7d' :: r4 => some (.cons k v .nil, r4)
               | _ => none
           | _ => none
       | _ => none) := rfl

theorem parseValCore_null (pe : List Char → Option (JsonList × List Char))
    (pm : List Char → Option (JsonMems × List Char)) (cs : List Char)
    (h : chStarts "ull".data cs = true) :
    parseValCore pe pm ('n' :: cs) = some (.null, cs.drop 3) := by
  have e : parseValCore pe pm ('n' :: cs) =
      if chStarts "ull".data cs then some (.null, cs.drop 3) else none := rfl
  rw [e, if_pos h]

theorem parseValCore_true (pe : List Char → Option (JsonList × List Char))
    (pm : List Char → Option (JsonMems × List Char)) (cs : List Char)
    (h : chStarts "rue".data cs = true) :
    parseValCore pe pm ('t' :: cs) = some (.bool true, cs.drop 3) := by
  have e : parseValCore pe pm ('t' :: cs) =
      if chStarts "rue".data cs then some (.bool true, cs.drop 3) else none := rfl
  rw [e, if_pos h]

theorem parseValCore_false (pe : List Char → Option (JsonList × List Char))
    (pm : List Char → Option (JsonMems × List Char)) (cs : List Char)
    (h : chStarts "alse".data cs = true) :
    parseValCore pe pm ('f' :: cs) = some (.bool false, cs.drop 4) := by
  have e : parseValCore pe pm ('f' :: cs) =
      if chStarts "alse".data cs then some (.bool false, cs.drop 4) else none := rfl
  rw [e, if_pos h]

theorem parseValCore_str_read (pe : List Char → Option (JsonList × List Char))
    (pm : List Char → Option (JsonMems × List Char)) (cs : List Char) (s : String)
    (r : List Char) (hr : parseStrAux [] cs = some (s, r)) :
    parseValCore pe pm ('"' :: cs) = some (.str s, r) := by
  have e : parseValCore pe pm ('"' :: cs) =
      (match parseStrAux [] cs with
       | some (s, r) => some (.str s, r)
       | none => none) := rfl
  rw [e, hr]

theorem parseValCore_arr_empty (pe : List Char → Option (JsonList × List Char))
    (pm : List Char → Option (JsonMems × List Char)) (cs : List Char)
    (h : headIs ']' (skipWs cs) = true) :
    parseValCore pe pm ('[' :: cs) = some (.arr .nil, tailOf (skipWs cs)) := by
  have e : parseValCore pe pm ('[' :: cs) =
      (if headIs ']' (skipWs cs) then some (.arr .nil, tailOf (skipWs cs))
       else
         match pe (skipWs cs) with
         | some (xs, r') => some (.arr xs, r')
         | none => none) := rfl
  rw [e, if_pos h]

theorem parseValCore_arr (pe : List Char → Option (JsonList × List Char))
    (pm : List Char → Option (JsonMems × List Char)) (cs : List Char)
    (xs : JsonList) (r' : List Char) (hhead : headIs ']' (skipWs cs) = false)
    (hpe : pe (skipWs cs) = some (xs, r')) :
    parseValCore pe pm ('[' :: cs) = some (.arr xs, r') := by
  have e : parseValCore pe pm ('[' :: cs) =
      (if headIs ']' (skipWs cs) then some (.arr .nil, tailOf (skipWs cs))
       else
         match pe (skipWs cs) with
         | some (xs, r') => some (.arr xs, r')
         | none => none) := rfl
  rw [e, if_neg (by rw [hhead]; exact Bool.false_ne_true), hpe]

theorem parseValCore_obj_empty (pe : List Char → Option (JsonList × List Char))
    (pm : List Char → Option (JsonMems × List Char)) (cs : List Char)
    (h : headIs '\x7d' (skipWs cs) = true) :
    parseValCore pe pm ('\x7b' :: cs) = some (.obj .nil, tailOf (skipWs cs)) := by
  have e : parseValCore pe pm ('\x7b' :: cs) =
      (if headIs '\x7d' (skipWs cs) then some (.obj .nil, tailOf (skipWs cs))
       else
         match pm (skipWs cs) with
         | some (ms, r') => some (.obj ms, r')
         | none => none) := rfl
  rw [e, if_pos h]

theorem parseValCore_obj (pe : List Char → Option (JsonList × List Char))
    (pm : List Char → Option (JsonMems × List Char)) (cs : List Char)
    (ms : JsonMems) (r' : List Char) (hhead : headIs '\x7d' (skipWs cs) = false)
    (hpm : pm (skipWs cs) = some (ms, r')) :
    parseValCore pe pm ('\x7b' :: cs) = some (.obj ms, r') := by
  have e : parseValCore pe pm ('\x7b' :: cs) =
      (if headIs '\x7d' (skipWs cs) then some (.obj .nil, tailOf (skipWs cs))
       else
         match pm (skipWs cs) with
         | some (ms, r') => some (.obj ms, r')
         | none => none) := rfl
  rw [e, if_neg (by rw [hhead]; exact Bool.false_ne_true), hpm]

theorem parseValCore_neg_read (pe : List Char → Option (JsonList × List Char))
    (pm : List Char → Option (JsonMems × List Char)) (cs : List Char) (m : Nat)
    (r : List Char) (hr : readNum cs = some (m, r)) :
    parseValCore pe pm ('-' :: cs) = some (.num (-(m : Int)), r) := by
  have e : parseValCore pe pm ('-' :: cs) =
      (match readNum cs with
       | some (m, r) => some (.num (-(m : Int)), r)
       | none => none) := rfl
  rw [e, hr]

theorem isDig_ne (c : Char) (h : isDig c = true) (d : Char) (hd : isDig d = false) : c ≠ d := by
  intro heq
  rw [heq, hd] at h
  exact Bool.false_ne_true h

theorem isDig_not_ws (c : Char) (h : isDig c = true) : isWs c = false := by
  simp only [isWs, Bool.or_eq_false_iff, beq_eq_false_iff_ne]
  exact ⟨⟨⟨isDig_ne c h ' ' (by decide), isDig_ne c h '\t' (by decide)⟩,
    isDig_ne c h '\n' (by decide)⟩, isDig_ne c h '\r' (by decide)⟩

theorem parseValCore_dig_read (pe : List Char → Option (JsonList × List Char))
    (pm : List Char → Option (JsonMems × List Char)) (c : Char) (cs : List Char) (m : Nat)
    (r : List Char) (h : isDig c = true) (hr : readNum (c :: cs) = some (m, r)) :
    parseValCore pe pm (c :: cs) = some (.num (m : Int), r) := by
  rw [parseValCore.eq_def]
  simp only []
  rw [if_neg (isDig_ne c h 'n' (by decide)), if_neg (isDig_ne c h 't' (by decide)),
    if_neg (isDig_ne c h 'f' (by decide)), if_neg (isDig_ne c h '"' (by decide)),
    if_neg (isDig_ne c h '[' (by decide)), if_neg (isDig_ne c h '\x7b' (by decide)),
    if_neg (isDig_ne c h '-' (by decide)), hr]

/-! ## Leading whitespace invariance of the parsers -/

theorem parseVal_ws (fuel : Nat) (l z : List Char) (hl : ∀ c ∈ l, isWs c = true) :
    parseVal fuel (l ++ z) = parseVal fuel z := by
  cases fuel with
  | zero => rfl
  | succ f => rw [parseVal_succ, parseVal_succ, skipWs_ws_append l hl z]

theorem parseElems_ws (fuel : Nat) (l z : List Char) (hl : ∀ c ∈ l, isWs c = true) :
    parseElems fuel (l ++ z) = parseElems fuel z := by
  cases fuel with
  | zero => rfl
  | succ f => rw [parseElems_succ, parseElems_succ, parseVal_ws f l z hl]

theorem parseMems_ws (fuel : Nat) (l z : List Char) (hl : ∀ c ∈ l, isWs c = true) :
    parseMems fuel (l ++ z) = parseMems fuel z := by
  cases fuel with
  | zero => rfl
  | succ f => rw [parseMems_succ, parseMems_succ, skipWs_ws_append l hl z]

theorem ws_newline_indent (d : Nat) : ∀ c ∈ '\n' :: indentC d, isWs c = true := by
  intro c hc
  rcases List.mem_cons.1 hc with h | h
  · rw [h]; rfl
  · have h' : c = ' ' := List.eq_of_mem_replicate (by simpa [indentC] using h)
    rw [h']; rfl

/-! ## Head shape of printed values -/

theorem printV_head (j : Json) (d : Nat) : ∃ c cs, printV d j = c :: cs ∧
    isWs c = false ∧ (c == ']') = false ∧ (c == '\x7d') = false := by
  cases j with
  | null => exact ⟨'n', "ull".data, rfl, by decide, by decide, by decide⟩
  | bool b =>
    cases b with
    | true => exact ⟨'t', "rue".data, rfl, by decide, by decide, by decide⟩
    | false => exact ⟨'f', "alse".data, rfl, by decide, by decide, by decide⟩
  | num n =>
    by_cases hn : n < 0
    · refine ⟨'-', natDigs n.natAbs, ?_, by decide, by decide, by decide⟩
      simp only [printV, intDigs, if_pos hn]
    · obtain ⟨c, cs, hd, hc, _, _⟩ := natDigs_spec n.natAbs
      refine ⟨c, cs, ?_, isDig_not_ws c hc, ?_, ?_⟩
      · simp only [printV, intDigs, if_neg hn, hd]
      · exact beq_eq_false_iff_ne.2 (isDig_ne c hc ']' (by decide))
      · exact beq_eq_false_iff_ne.2 (isDig_ne c hc '\x7d' (by decide))
  | str s => exact ⟨'"', escL s.data ++ ['"'], rfl, by decide, by decide, by decide⟩
  | arr xs =>
    cases xs with
    | nil => exact ⟨'[', [']'], rfl, by decide, by decide, by decide⟩
    | cons x tl =>
      exact ⟨'[', '\n' :: (indentC (d + 1) ++ printV (d + 1) x ++ printEtail (d + 1) tl) ++
        '\n' :: indentC d ++ [']'], rfl, by decide, by decide, by decide⟩
  | obj ms =>
    cases ms with
    | nil => exact ⟨'\x7b', ['\x7d'], rfl, by decide, by decide, by decide⟩
    | cons k v tl =>
      exact ⟨'\x7b', '\n' :: (indentC (d + 1) ++ qstrL k ++ ':' :: ' ' :: printV (d + 1) v ++
        printMtail (d + 1) tl) ++ '\n' :: indentC d ++ ['\x7d'], rfl, by decide, by decide,
        by decide⟩

theorem skipWs_printV_append (j : Json) (d : Nat) (z : List Char) :
    skipWs (printV d j ++ z) = printV d j ++ z := by
  obtain ⟨c, cs, hd, hws, _, _⟩ := printV_head j d
  rw [hd, List.cons_append, skipWs_not_ws c _ hws]

theorem headIs_rbrk_printV (j : Json) (d : Nat) (z : List Char) :
    headIs ']' (printV d j ++ z) = false := by
  obtain ⟨c, cs, hd, _, hb, _⟩ := printV_head j d
  rw [hd, List.cons_append]
  simpa [headIs] using hb

theorem noDigHead_printEtail (d : Nat) (tl : JsonList) (z : List Char) :
    noDigHead (printEtail d tl ++ '\n' :: z) = true := by
  cases tl with
  | nil => rfl
  | cons y tl => rfl

theorem noDigHead_printMtail (d : Nat) (tl : JsonMems) (z : List Char) :
    noDigHead (printMtail d tl ++ '\n' :: z) = true := by
  cases tl with
  | nil => rfl
  | cons k v tl => rfl

/-! ## Parser continuation lemmas -/

theorem parseElems_close (fuel : Nat) (s R rest : List Char) (x : Json)
    (h1 : parseVal fuel s = some (x, R)) (h2 : skipWs R = ']' :: rest) :
    parseElems (fuel + 1) s = some (.cons x .nil, rest) := by
  rw [parseElems_succ, h1]
  show (match skipWs R with
        | ',' :: r' =>
          match parseElems fuel r' with
          | some (xs, r'') => some (JsonList.cons x xs, r'')
          | none => none
        | ']' :: r' => some (JsonList.cons x .nil, r')
        | _ => none) = some (JsonList.cons x .nil, rest)
  rw [h2]
  rfl

theorem parseElems_comma (fuel : Nat) (s R r' r'' : List Char) (x : Json) (xs : JsonList)
    (h1 : parseVal fuel s = some (x, R)) (h2 : skipWs R = ',' :: r')
    (h3 : parseElems fuel r' = some (xs, r'')) :
    parseElems (fuel + 1) s = some (.cons x xs, r'') := by
  rw [parseElems_succ, h1]
  show (match skipWs R with
        | ',' :: r' =>
          match parseElems fuel r' with
          | some (xs, r'') => some (JsonList.cons x xs, r'')
          | none => none
        | ']' :: r' => some (JsonList.cons x .nil, r')
        | _ => none) = some (JsonList.cons x xs, r'')
  rw [h2]
  show (match parseElems fuel r' with
        | some (xs, r'') => some (JsonList.cons x xs, r'')
        | none => none) = some (JsonList.cons x xs, r'')
  rw [h3]

theorem parseMems_close (fuel : Nat) (s r r1 r2 r3 r4 : List Char) (k : String) (v : Json)
    (h0 : skipWs s = '"' :: r) (h1 : parseStrAux [] r = some (k, r1))
    (h2 : skipWs r1 = ':' :: r2) (h3 : parseVal fuel r2 = some (v, r3))
    (h4 : skipWs r3 = '\x7d' :: r4) :
    parseMems (fuel + 1) s = some (.cons k v .nil, r4) := by
  rw [parseMems_succ, h0]
  show (match parseStrAux [] r with
        | none => none
        | some (k, r1) =>
          match skipWs r1 with
          | ':' :: r2 =>
            match parseVal fuel r2 with
            | none => none
            | some (v, r3) =>
              match skipWs r3 with
              | ',' :: r4 =>
                match parseMems fuel r4 with
                | some (ms, r5) => some (JsonMems.cons k v ms, r5)
                | none => none
              | '\x7d' :: r4 => some (JsonMems.cons k v .nil, r4)
              | _ => none
          | _ => none) = some (JsonMems.cons k v .nil, r4)
  rw [h1]
  show (match skipWs r1 with
        | ':' :: r2 =>
          match parseVal fuel r2 with
          | none => none
          | some (v, r3) =>
            match skipWs r3 with
            | ',' :: r4 =>
              match parseMems fuel r4 with
              | some (ms, r5) => some (JsonMems.cons k v ms, r5)
              | none => none
            | '\x7d' :: r4 => some (JsonMems.cons k v .nil, r4)
            | _ => none
        | _ => none) = some (JsonMems.cons k v .nil, r4)
  rw [h2]
  show (match parseVal fuel r2 with
        | none => none
        | some (v, r3) =>
          match skipWs r3 with
          | ',' :: r4 =>
            match parseMems fuel r4 with
            | some (ms, r5) => some (JsonMems.cons k v ms, r5)
            | none => none
          | '\x7d' :: r4 => some (JsonMems.cons k v .nil, r4)
          | _ => none) = some (JsonMems.cons k v .nil, r4)
  rw [h3]
  show (match skipWs r3 with
        | ',' :: r4 =>
          match parseMems fuel r4 with
          | some (ms, r5) => some (JsonMems.cons k v ms, r5)
          | none => none
        | '\x7d' :: r4 => some (JsonMems.cons k v .nil, r4)
        | _ => none) = some (JsonMems.cons k v .nil, r4)
  rw [h4]
  rfl

theorem parseMems_comma (fuel : Nat) (s r r1 r2 r3 r4 r5 : List Char) (k : String) (v : Json)
    (ms : JsonMems)
    (h0 : skipWs s = '"' :: r) (h1 : parseStrAux [] r = some (k, r1))
    (h2 : skipWs r1 = ':' :: r2) (h3 : parseVal fuel r2 = some (v, r3))
    (h4 : skipWs r3 = ',' :: r4) (h5 : parseMems fuel r4 = some (ms, r5)) :
    parseMems (fuel + 1) s = some (.cons k v ms, r5) := by
  rw [parseMems_succ, h0]
  show (match parseStrAux [] r with
        | none => none
        | some (k, r1) =>
          match skipWs r1 with
          | ':' :: r2 =>
            match parseVal fuel r2 with
            | none => none
            | some (v, r3) =>
              match skipWs r3 with
              | ',' :: r4 =>
                match parseMems fuel r4 with
                | some (ms, r5) => some (JsonMems.cons k v ms, r5)
                | none => none
              | '\x7d' :: r4 => some (JsonMems.cons k v .nil, r4)
              | _ => none
          | _ => none) = some (JsonMems.cons k v ms, r5)
  rw [h1]
  show (match skipWs r1 with
        | ':' :: r2 =>
          match parseVal fuel r2 with
          | none => none
          | some (v, r3) =>
            match skipWs r3 with
            | ',' :: r4 =>
              match parseMems fuel r4 with
              | some (ms, r5) => some (JsonMems.cons k v ms, r5)
              | none => none
            | '\x7d' :: r4 => some (JsonMems.cons k v .nil, r4)
            | _ => none
        | _ => none) = some (JsonMems.cons k v ms, r5)
  rw [h2]
  show (match parseVal fuel r2 with
        | none => none
        | some (v, r3) =>
          match skipWs r3 with
          | ',' :: r4 =>
            match parseMems fuel r4 with
            | some (ms, r5) => some (JsonMems.cons k v ms, r5)
            | none => none
          | '\x7d' :: r4 => some (JsonMems.cons k v .nil, r4)
          | _ => none) = some (JsonMems.cons k v ms, r5)
  rw [h3]
  show (match skipWs r3 with
        | ',' :: r4 =>
          match parseMems fuel r4 with
          | some (ms, r5) => some (JsonMems.cons k v ms, r5)
          | none => none
        | '\x7d' :: r4 => some (JsonMems.cons k v .nil, r4)
        | _ => none) = some (JsonMems.cons k v ms, r5)
  rw [h4]
  show (match parseMems fuel r4 with
        | some (ms, r5) => some (JsonMems.cons k v ms, r5)
        | none => none) = some (JsonMems.cons k v ms, r5)
  rw [h5]

/-! ## Printed values parse back (round trip, main induction) -/

theorem skipWs_qstrL_append (k : String) (z : List Char) :
    skipWs (qstrL k ++ z) = qstrL k ++ z := by
  rw [show qstrL k ++ z = '"' :: ((escL k.data ++ ['"']) ++ z) from rfl,
    skipWs_not_ws '"' _ (by decide)]

theorem headIs_rbrace_qstrL (k : String) (z : List Char) :
    headIs '\x7d' (qstrL k ++ z) = false := rfl

mutual
theorem parseVal_print (j : Json) : ∀ (d fuel : Nat) (rest : List Char),
    neededV j ≤ fuel → noDigHead rest = true →
    parseVal fuel (printV d j ++ rest) = some (j, rest) := by
  intro d fuel rest hfuel hrest
  cases j with
  | null =>
    cases fuel with
    | zero => simp only [neededV] at hfuel; omega
    | succ f =>
      rw [show printV d Json.null ++ rest = 'n' :: ("ull".data ++ rest) from rfl,
        parseVal_succ, skipWs_not_ws 'n' _ (by decide),
        parseValCore_null _ _ _ (chStarts_self_append _ rest),
        show (("ull".data : List Char) ++ rest).drop 3 = rest from List.drop_left "ull".data rest]
  | bool b =>
    cases fuel with
    | zero => simp only [neededV] at hfuel; omega
    | succ f =>
      cases b with
      | true =>
        rw [show printV d (Json.bool true) ++ rest = 't' :: ("rue".data ++ rest) from rfl,
          parseVal_succ, skipWs_not_ws 't' _ (by decide),
          parseValCore_true _ _ _ (chStarts_self_append _ rest),
          show (("rue".data : List Char) ++ rest).drop 3 = rest from List.drop_left "rue".data rest]
      | false =>
        rw [show printV d (Json.bool false) ++ rest = 'f' :: ("alse".data ++ rest) from rfl,
          parseVal_succ, skipWs_not_ws 'f' _ (by decide),
          parseValCore_false _ _ _ (chStarts_self_append _ rest),
          show (("alse".data : List Char) ++ rest).drop 4 = rest from List.drop_left "alse".data rest]
  | num n =>
    cases fuel with
    | zero => simp only [neededV] at hfuel; omega
    | succ f =>
      by_cases hn : n < 0
      · have hread : readNum (natDigs n.natAbs ++ rest) = some (n.natAbs, rest) :=
          readNum_natDigs n.natAbs rest hrest
        rw [show printV d (Json.num n) = intDigs n from rfl]
        simp only [intDigs]
        rw [if_pos hn, List.cons_append, parseVal_succ, skipWs_not_ws '-' _ (by decide),
          parseValCore_neg_read _ _ _ _ _ hread]
        have hcast : -((n.natAbs : Nat) : Int) = n := by omega
        rw [hcast]
      · obtain ⟨c, cs, hd, hc, _, _⟩ := natDigs_spec n.natAbs
        have hread : readNum (c :: (cs ++ rest)) = some (n.natAbs, rest) := by
          rw [← List.cons_append, ← hd]
          exact readNum_natDigs n.natAbs rest hrest
        rw [show printV d (Json.num n) = intDigs n from rfl]
        simp only [intDigs]
        rw [if_neg hn, hd, List.cons_append, parseVal_succ,
          skipWs_not_ws c _ (isDig_not_ws c hc),
          parseValCore_dig_read _ _ c _ n.natAbs rest hc hread]
        have hcast : ((n.natAbs : Nat) : Int) = n := by omega
        rw [hcast]
  | str s =>
    cases fuel with
    | zero => simp only [neededV] at hfuel; omega
    | succ f =>
      have hps : parseStrAux [] (escL s.data ++ '"' :: rest) = some (s, rest) := by
        rw [parseStrAux_esc s.data [] rest]
        simp [strMk_data]
      have hshape : printV d (Json.str s) ++ rest = '"' :: (escL s.data ++ '"' :: rest) := by
        show qstrL s ++ rest = _
        simp [qstrL, List.append_assoc]
      rw [hshape, parseVal_succ, skipWs_not_ws '"' _ (by decide),
        parseValCore_str_read _ _ _ s rest hps]
  | arr xs =>
    cases xs with
    | nil =>
      cases fuel with
      | zero => simp only [neededV] at hfuel; omega
      | succ f =>
        have h1 : skipWs (']' :: rest) = ']' :: rest := skipWs_not_ws _ _ (by decide)
        rw [show printV d (Json.arr .nil) ++ rest = '[' :: (']' :: rest) from rfl,
          parseVal_succ, skipWs_not_ws '[' _ (by decide),
          parseValCore_arr_empty _ _ _ (by rw [h1]; rfl), h1]
        rfl
    | cons x tl =>
      cases fuel with
      | zero => simp only [neededV] at hfuel; omega
      | succ f =>
        have hL : neededL (.cons x tl) ≤ f := by
          simp only [neededV] at hfuel
          omega
        have hshape : printV d (Json.arr (.cons x tl)) ++ rest =
            '[' :: ('\n' :: (indentC (d + 1) ++ (printV (d + 1) x ++ (printEtail (d + 1) tl ++
              ('\n' :: (indentC d ++ (']' :: rest))))))) := by
          simp only [printV]
          simp [List.append_assoc]
        have hr : skipWs ('\n' :: (indentC (d + 1) ++ (printV (d + 1) x ++
            (printEtail (d + 1) tl ++ ('\n' :: (indentC d ++ (']' :: rest))))))) =
            printV (d + 1) x ++ (printEtail (d + 1) tl ++
              ('\n' :: (indentC d ++ (']' :: rest)))) := by
          rw [show ('\n' :: (indentC (d + 1) ++ (printV (d + 1) x ++ (printEtail (d + 1) tl ++
              ('\n' :: (indentC d ++ (']' :: rest))))))) = ('\n' :: indentC (d + 1)) ++
              (printV (d + 1) x ++ (printEtail (d + 1) tl ++
                ('\n' :: (indentC d ++ (']' :: rest))))) from rfl,
            skipWs_ws_append _ (ws_newline_indent (d + 1)) _, skipWs_printV_append]
        rw [hshape, parseVal_succ, skipWs_not_ws '[' _ (by decide),
          parseValCore_arr _ _ _ (.cons x tl) rest
            (by rw [hr]; exact headIs_rbrk_printV _ _ _)
            (by rw [hr]; exact parseElems_print x tl (d + 1) d f rest hL hrest)]
  | obj ms =>
    cases ms with
    | nil =>
      cases fuel with
      | zero => simp only [neededV] at hfuel; omega
      | succ f =>
        have h1 : skipWs ('\x7d' :: rest) = '\x7d' :: rest := skipWs_not_ws _ _ (by decide)
        rw [show printV d (Json.obj .nil) ++ rest = '\x7b' :: ('\x7d' :: rest) from rfl,
          parseVal_succ, skipWs_not_ws '\x7b' _ (by decide),
          parseValCore_obj_empty _ _ _ (by rw [h1]; rfl), h1]
        rfl
    | cons k v tl =>
      cases fuel with
      | zero => simp only [neededV] at hfuel; omega
      | succ f =>
        have hM : neededM (.cons k v tl) ≤ f := by
          simp only [neededV] at hfuel
          omega
        have hshape : printV d (Json.obj (.cons k v tl)) ++ rest =
            '\x7b' :: ('\n' :: (indentC (d + 1) ++ (qstrL k ++ (':' :: (' ' ::
              (printV (d + 1) v ++ (printMtail (d + 1) tl ++
                ('\n' :: (indentC d ++ ('\x7d' :: rest)))))))))) := by
          simp only [printV]
          simp [List.append_assoc]
        have hr : skipWs ('\n' :: (indentC (d + 1) ++ (qstrL k ++ (':' :: (' ' ::
            (printV (d + 1) v ++ (printMtail (d + 1) tl ++
              ('\n' :: (indentC d ++ ('\x7d' :: rest)))))))))) =
            qstrL k ++ (':' :: (' ' :: (printV (d + 1) v ++ (printMtail (d + 1) tl ++
              ('\n' :: (indentC d ++ ('\x7d' :: rest))))))) := by
          rw [show ('\n' :: (indentC (d + 1) ++ (qstrL k ++ (':' :: (' ' ::
              (printV (d + 1) v ++ (printMtail (d + 1) tl ++
                ('\n' :: (indentC d ++ ('\x7d' :: rest)))))))))) = ('\n' :: indentC (d + 1)) ++
              (qstrL k ++ (':' :: (' ' :: (printV (d + 1) v ++ (printMtail (d + 1) tl ++
                ('\n' :: (indentC d ++ ('\x7d' :: rest)))))))) from rfl,
            skipWs_ws_append _ (ws_newline_indent (d + 1)) _, skipWs_qstrL_append]
        rw [hshape, parseVal_succ, skipWs_not_ws '\x7b' _ (by decide),
          parseValCore_obj _ _ _ (.cons k v tl) rest
            (by rw [hr]; exact headIs_rbrace_qstrL _ _)
            (by rw [hr]; exact parseMems_print k v tl (d + 1) d f rest hM hrest)]
termination_by sizeOf j

theorem parseElems_print (x : Json) (tl : JsonList) : ∀ (d cd fuel : Nat) (rest : List Char),
    neededL (.cons x tl) ≤ fuel → noDigHead rest = true →
    parseElems fuel (printV d x ++ (printEtail d tl ++ ('\n' :: (indentC cd ++ (']' :: rest))))) =
      some (.cons x tl, rest) := by
  intro d cd fuel rest hfuel hrest
  cases fuel with
  | zero => simp only [neededL] at hfuel; omega
  | succ f =>
    have hx : neededV x ≤ f := by
      simp only [neededL] at hfuel
      omega
    have h1 : parseVal f (printV d x ++ (printEtail d tl ++
        ('\n' :: (indentC cd ++ (']' :: rest))))) =
        some (x, printEtail d tl ++ ('\n' :: (indentC cd ++ (']' :: rest)))) :=
      parseVal_print x d f _ hx (noDigHead_printEtail d tl _)
    cases tl with
    | nil =>
      have h2 : skipWs (printEtail d JsonList.nil ++ ('\n' :: (indentC cd ++ (']' :: rest)))) =
          ']' :: rest := by
        rw [show printEtail d JsonList.nil ++ ('\n' :: (indentC cd ++ (']' :: rest))) =
            ('\n' :: indentC cd) ++ (']' :: rest) from rfl,
          skipWs_ws_append _ (ws_newline_indent cd) _, skipWs_not_ws ']' _ (by decide)]
      exact parseElems_close f _ _ rest x h1 h2
    | cons y tl' =>
      have hL' : neededL (.cons y tl') ≤ f := by
        simp only [neededL] at hfuel ⊢
        omega
      have hnorm : printEtail d (JsonList.cons y tl') ++ ('\n' :: (indentC cd ++ (']' :: rest))) =
          ',' :: (('\n' :: indentC d) ++ (printV d y ++ (printEtail d tl' ++
            ('\n' :: (indentC cd ++ (']' :: rest)))))) := by
        simp only [printEtail]
        simp [List.append_assoc]
      have h2 : skipWs (printEtail d (JsonList.cons y tl') ++
          ('\n' :: (indentC cd ++ (']' :: rest)))) =
          ',' :: (('\n' :: indentC d) ++ (printV d y ++ (printEtail d tl' ++
            ('\n' :: (indentC cd ++ (']' :: rest)))))) := by
        rw [hnorm]
        exact skipWs_not_ws ',' _ (by decide)
      have h3 : parseElems f (('\n' :: indentC d) ++ (printV d y ++ (printEtail d tl' ++
          ('\n' :: (indentC cd ++ (']' :: rest)))))) = some (.cons y tl', rest) := by
        rw [parseElems_ws f _ _ (ws_newline_indent d)]
        exact parseElems_print y tl' d cd f rest hL' hrest
      exact parseElems_comma f _ _ _ rest x (.cons y tl') h1 h2 h3
termination_by sizeOf x + sizeOf tl + 1

theorem parseMems_print (k : String) (v : Json) (tl : JsonMems) :
    ∀ (d cd fuel : Nat) (rest : List Char),
    neededM (.cons k v tl) ≤ fuel → noDigHead rest = true →
    parseMems fuel (qstrL k ++ (':' :: (' ' :: (printV d v ++ (printMtail d tl ++
      ('\n' :: (indentC cd ++ ('\x7d' :: rest)))))))) = some (.cons k v tl, rest) := by
  intro d cd fuel rest hfuel hrest
  cases fuel with
  | zero => simp only [neededM] at hfuel; omega
  | succ f =>
    have hv : neededV v ≤ f := by
      simp only [neededM] at hfuel
      omega
    have h0 : skipWs (qstrL k ++ (':' :: (' ' :: (printV d v ++ (printMtail d tl ++
        ('\n' :: (indentC cd ++ ('\x7d' :: rest)))))))) =
        '"' :: (escL k.data ++ ('"' :: (':' :: (' ' :: (printV d v ++ (printMtail d tl ++
          ('\n' :: (indentC cd ++ ('\x7d' :: rest))))))))) := by
      rw [skipWs_qstrL_append]
      simp [qstrL, List.append_assoc]
    have h1 : parseStrAux [] (escL k.data ++ ('"' :: (':' :: (' ' :: (printV d v ++
        (printMtail d tl ++ ('\n' :: (indentC cd ++ ('\x7d' :: rest))))))))) =
        some (k, ':' :: (' ' :: (printV d v ++ (printMtail d tl ++
          ('\n' :: (indentC cd ++ ('\x7d' :: rest))))))) := by
      rw [parseStrAux_esc k.data [] _]
      simp [strMk_data]
    have h2 : skipWs (':' :: (' ' :: (printV d v ++ (printMtail d tl ++
        ('\n' :: (indentC cd ++ ('\x7d' :: rest))))))) =
        ':' :: (' ' :: (printV d v ++ (printMtail d tl ++
          ('\n' :: (indentC cd ++ ('\x7d' :: rest)))))) :=
      skipWs_not_ws ':' _ (by decide)
    have h3 : parseVal f (' ' :: (printV d v ++ (printMtail d tl ++
        ('\n' :: (indentC cd ++ ('\x7d' :: rest)))))) =
        some (v, printMtail d tl ++ ('\n' :: (indentC cd ++ ('\x7d' :: rest)))) := by
      rw [show (' ' :: (printV d v ++ (printMtail d tl ++
          ('\n' :: (indentC cd ++ ('\x7d' :: rest)))))) = [' '] ++ (printV d v ++
          (printMtail d tl ++ ('\n' :: (indentC cd ++ ('\x7d' :: rest))))) from rfl,
        parseVal_ws f [' '] _ (by decide)]
      exact parseVal_print v d f _ hv (noDigHead_printMtail d tl _)
    cases tl with
    | nil =>
      have h4 : skipWs (printMtail d JsonMems.nil ++ ('\n' :: (indentC cd ++ ('\x7d' :: rest)))) =
          '\x7d' :: rest := by
        rw [show printMtail d JsonMems.nil ++ ('\n' :: (indentC cd ++ ('\x7d' :: rest))) =
            ('\n' :: indentC cd) ++ ('\x7d' :: rest) from rfl,
          skipWs_ws_append _ (ws_newline_indent cd) _, skipWs_not_ws '\x7d' _ (by decide)]
      exact parseMems_close f _ _ _ _ _ rest k v h0 h1 h2 h3 h4
    | cons k2 v2 tl2 =>
      have hM' : neededM (.cons k2 v2 tl2) ≤ f := by
        simp only [neededM] at hfuel ⊢
        omega
      have hnorm : printMtail d (JsonMems.cons k2 v2 tl2) ++
          ('\n' :: (indentC cd ++ ('\x7d' :: rest))) =
          ',' :: (('\n' :: indentC d) ++ (qstrL k2 ++ (':' :: (' ' :: (printV d v2 ++
            (printMtail d tl2 ++ ('\n' :: (indentC cd ++ ('\x7d' :: rest))))))))) := by
        simp only [printMtail]
        simp [List.append_assoc]
      have h4 : skipWs (printMtail d (JsonMems.cons k2 v2 tl2) ++
          ('\n' :: (indentC cd ++ ('\x7d' :: rest)))) =
          ',' :: (('\n' :: indentC d) ++ (qstrL k2 ++ (':' :: (' ' :: (printV d v2 ++
            (printMtail d tl2 ++ ('\n' :: (indentC cd ++ ('\x7d' :: rest))))))))) := by
        rw [hnorm]
        exact skipWs_not_ws ',' _ (by decide)
      have h5 : parseMems f (('\n' :: indentC d) ++ (qstrL k2 ++ (':' :: (' ' ::
          (printV d v2 ++ (printMtail d tl2 ++
            ('\n' :: (indentC cd ++ ('\x7d' :: rest))))))))) =
          some (.cons k2 v2 tl2, rest) := by
        rw [parseMems_ws f _ _ (ws_newline_indent d)]
        exact parseMems_print k2 v2 tl2 d cd f rest hM' hrest
      exact parseMems_comma f _ _ _ _ _ _ rest k v (.cons k2 v2 tl2) h0 h1 h2 h3 h4 h5
termination_by sizeOf v + sizeOf tl + 1
end

/-! ## Fuel bounds and the JSON round-trip theorem -/

mutual
theorem neededV_le_len (j : Json) : ∀ d : Nat, neededV j ≤ (printV d j).length := by
  intro d
  cases j with
  | null => simp [neededV, printV]
  | bool b => cases b <;> simp [neededV, printV]
  | num n =>
    obtain ⟨c, cs, hd, _, _, _⟩ := natDigs_spec n.natAbs
    simp only [neededV, printV, intDigs]
    by_cases hn : n < 0
    · rw [if_pos hn]
      simp
    · rw [if_neg hn, hd]
      simp
  | str s => simp [neededV, printV, qstrL]
  | arr xs =>
    cases xs with
    | nil => simp [neededV, neededL, printV]
    | cons x tl =>
      have h1 := neededV_le_len x (d + 1)
      have h2 := neededL_le_len tl (d + 1)
      simp only [neededV, neededL, printV]
      simp [List.length_append, indentC]
      omega
  | obj ms =>
    cases ms with
    | nil => simp [neededV, neededM, printV]
    | cons k v tl =>
      have h1 := neededV_le_len v (d + 1)
      have h2 := neededM_le_len tl (d + 1)
      simp only [neededV, neededM, printV]
      simp [List.length_append, indentC]
      omega
theorem neededL_le_len (xs : JsonList) : ∀ d : Nat, neededL xs ≤ (printEtail d xs).length := by
  intro d
  cases xs with
  | nil => simp [neededL, printEtail]
  | cons y tl =>
    have h1 := neededV_le_len y d
    have h2 := neededL_le_len tl d
    simp only [neededL, printEtail]
    simp [List.length_append, indentC]
    omega
theorem neededM_le_len (ms : JsonMems) : ∀ d : Nat, neededM ms ≤ (printMtail d ms).length := by
  intro d
  cases ms with
  | nil => simp [neededM, printMtail]
  | cons k v tl =>
    have h1 := neededV_le_len v d
    have h2 := neededM_le_len tl d
    simp only [neededM, printMtail]
    simp [List.length_append, indentC]
    omega
end

/-- JSON.parse recovers the value from JSON.stringify(v, null, 2) output:
the pretty-printed text of any JSON value parses back to that value. -/
theorem parseJson_stringify2 (j : Json) : parseJson (jsonStringify2 j) = some j := by
  have hb : neededV j ≤ (printV 0 j).length + 1 :=
    le_trans (neededV_le_len j 0) (by omega)
  have hp : parseVal ((printV 0 j).length + 1) (printV 0 j) = some (j, []) := by
    have h := parseVal_print j 0 ((printV 0 j).length + 1) [] hb rfl
    rwa [List.append_nil] at h
  show (match parseVal ((printV 0 j).length + 1) (printV 0 j) with
        | some (j, r) => if skipWs r = [] then some j else none
        | none => none) = some j
  rw [hp]
  rfl

/-! ## Title extraction lemmas -/

theorem ciStarts_of_ciEqL (pat : List Char) : ∀ o x : List Char, ciEqL pat o = true →
    ciStarts pat (o ++ x) = true := by
  induction pat with
  | nil => intro o x h; rfl
  | cons p ps ih =>
    intro o x h
    cases o with
    | nil => simp [ciEqL] at h
    | cons c cs =>
      simp only [ciEqL, Bool.and_eq_true] at h
      simp only [List.cons_append, ciStarts, Bool.and_eq_true]
      refine ⟨h.1, ?_⟩
      exact ih cs x h.2
  
theorem ciEqL_length (pat : List Char) : ∀ o : List Char, ciEqL pat o = true →
    o.length = pat.length := by
  induction pat with
  | nil =>
    intro o h
    cases o with
    | nil => rfl
    | cons c cs => simp [ciEqL] at h
  | cons p ps ih =>
    intro o h
    cases o with
    | nil => simp [ciEqL] at h
    | cons c cs =>
      simp only [ciEqL, Bool.and_eq_true] at h
      simp [ih cs h.2]

theorem ciStarts_append_left_of_le (pat : List Char) : ∀ s t : List Char,
    pat.length ≤ s.length → ciStarts pat (s ++ t) = ciStarts pat s := by
  induction pat with
  | nil => intro s t _; rfl
  | cons p ps ih =>
    intro s t hlen
    cases s with
    | nil => simp at hlen
    | cons c cs =>
      simp only [List.length_cons, Nat.add_le_add_iff_right] at hlen
      simp only [List.cons_append, ciStarts]
      exact congrArg (fun b => lowerCh p == lowerCh c && b) (ih cs t hlen)

theorem ciHas_of_starts (s pat : List Char) (h : ciStarts pat s = true) :
    ciHas s pat = true := by
  cases s with
  | nil => simpa [ciHas] using h
  | cons c tl => simp [ciHas, h]

theorem ciHas_cons_false (c : Char) (tl pat : List Char) (h : ciHas (c :: tl) pat = false) :
    ciStarts pat (c :: tl) = false ∧ ciHas tl pat = false := by
  simpa [ciHas, Bool.or_eq_false_iff] using h

theorem findTitle_skip (c : Char) (cs : List Char)
    (h1 : ciStarts openTagL (c :: cs) = false) :
    findTitle (c :: cs) = findTitle cs := by
  rw [findTitle.eq_def]
  simp only []
  rw [if_neg (by simp [h1])]

theorem findTitle_found (c : Char) (cs content rem : List Char)
    (h1 : ciStarts openTagL (c :: cs) = true)
    (h2 : scanClose [] ((c :: cs).drop 7) = some (content, rem)) :
    findTitle (c :: cs) = some content := by
  rw [findTitle.eq_def]
  simp only []
  rw [if_pos h1, h2]

theorem scanClose_found (acc : List Char) (ch : Char) (cs : List Char)
    (h : ciStarts closeTagL (ch :: cs) = true) :
    scanClose acc (ch :: cs) = some (acc.reverse, (ch :: cs).drop 8) := by
  rw [scanClose.eq_def]
  simp only []
  rw [if_pos h]

theorem scanClose_skip (acc : List Char) (ch : Char) (cs : List Char)
    (h1 : ciStarts closeTagL (ch :: cs) = false) (h2 : isLineTerm ch = false) :
    scanClose acc (ch :: cs) = scanClose (ch :: acc) cs := by
  rw [scanClose.eq_def]
  simp only []
  rw [if_neg (by simp [h1]), if_neg (by simp [h2])]

theorem findTitle_none (s : List Char) (h : ciHas s openTagL = false) :
    findTitle s = none := by
  induction s with
  | nil => rfl
  | cons c cs ih =>
    obtain ⟨h1, h2⟩ := ciHas_cons_false c cs openTagL h
    rw [findTitle_skip c cs h1]
    exact ih h2

theorem scanClose_exact (t : List Char) : ∀ acc ct r : List Char,
    ciEqL closeTagL ct = true →
    ciHas (t ++ ct.take 7) closeTagL = false →
    (∀ ch ∈ t, isLineTerm ch = false) →
    scanClose acc (t ++ (ct ++ r)) = some (acc.reverse ++ t, r) := by
  induction t with
  | nil =>
    intro acc ct r hct _ _
    have hlen : ct.length = 8 := by
      have := ciEqL_length closeTagL ct hct
      simpa using this
    cases ct with
    | nil => simp at hlen
    | cons c0 cs0 =>
      have hst : ciStarts closeTagL (c0 :: (cs0 ++ r)) = true :=
        ciStarts_of_ciEqL closeTagL (c0 :: cs0) r hct
      have hdrop : (c0 :: (cs0 ++ r)).drop 8 = r := by
        show ((c0 :: cs0) ++ r).drop 8 = r
        rw [← hlen]
        exact List.drop_left _ _
      show scanClose acc (c0 :: (cs0 ++ r)) = some (acc.reverse ++ [], r)
      rw [scanClose_found acc c0 (cs0 ++ r) hst, hdrop, List.append_nil]
  | cons ch t' ih =>
    intro acc ct r hct hno hlt
    have hchlt : isLineTerm ch = false := hlt ch (by simp)
    have hlen : ct.length = 8 := by
      have := ciEqL_length closeTagL ct hct
      simpa using this
    have h7 : (ct.take 7).length = 7 := by
      rw [List.length_take, hlen]
      decide
    have hno2 : ciHas (ch :: (t' ++ ct.take 7)) closeTagL = false := hno
    obtain ⟨hf1, hno'⟩ := ciHas_cons_false ch (t' ++ ct.take 7) closeTagL hno2
    have hsplit : (ch :: t') ++ (ct ++ r) = ((ch :: t') ++ ct.take 7) ++ (ct.drop 7 ++ r) := by
      rw [List.append_assoc, ← List.append_assoc (ct.take 7) (ct.drop 7) r,
        List.take_append_drop]
    have hstart : ciStarts closeTagL (ch :: (t' ++ (ct ++ r))) =
        ciStarts closeTagL (ch :: (t' ++ ct.take 7)) := by
      show ciStarts closeTagL ((ch :: t') ++ (ct ++ r)) =
        ciStarts closeTagL ((ch :: t') ++ ct.take 7)
      rw [hsplit]
      refine ciStarts_append_left_of_le closeTagL _ _ ?_
      rw [show (closeTagL : List Char).length = 8 from rfl]
      simp [h7]
    have hfalse : ciStarts closeTagL (ch :: (t' ++ (ct ++ r))) = false := by
      rw [hstart]
      exact hf1
    show scanClose acc (ch :: (t' ++ (ct ++ r))) = some (acc.reverse ++ ch :: t', r)
    rw [scanClose_skip acc ch _ hfalse hchlt,
      ih (ch :: acc) ct r hct hno' (fun x hx => hlt x (by simp [hx]))]
    simp [List.reverse_cons, List.append_assoc]

theorem findTitle_exact (p : List Char) : ∀ ot t ct r : List Char,
    ciEqL openTagL ot = true → ciEqL closeTagL ct = true →
    ciHas (p ++ ot.take 6) openTagL = false →
    ciHas (t ++ ct.take 7) closeTagL = false →
    (∀ ch ∈ t, isLineTerm ch = false) →
    findTitle (p ++ (ot ++ (t ++ (ct ++ r)))) = some t := by
  induction p with
  | nil =>
    intro ot t ct r hot hct _ hnoc hlt
    have hlen : ot.length = 7 := by
      have := ciEqL_length openTagL ot hot
      simpa using this
    cases ot with
    | nil => simp at hlen
    | cons o0 os =>
      have hst : ciStarts openTagL (o0 :: (os ++ (t ++ (ct ++ r)))) = true :=
        ciStarts_of_ciEqL openTagL (o0 :: os) _ hot
      have hdrop : (o0 :: (os ++ (t ++ (ct ++ r)))).drop 7 = t ++ (ct ++ r) := by
        show ((o0 :: os) ++ (t ++ (ct ++ r))).drop 7 = t ++ (ct ++ r)
        rw [← hlen]
        exact List.drop_left _ _
      have h2 : scanClose [] ((o0 :: (os ++ (t ++ (ct ++ r)))).drop 7) = some (t, r) := by
        rw [hdrop]
        have h := scanClose_exact t [] ct r hct hnoc hlt
        simpa using h
      show findTitle (o0 :: (os ++ (t ++ (ct ++ r)))) = some t
      exact findTitle_found o0 _ t r hst h2
  | cons c p' ih =>
    intro ot t ct r hot hct hnop hnoc hlt
    have hlen : ot.length = 7 := by
      have := ciEqL_length openTagL ot hot
      simpa using this
    have h6 : (ot.take 6).length = 6 := by
      rw [List.length_take, hlen]
      decide
    have hnop2 : ciHas (c :: (p' ++ ot.take 6)) openTagL = false := hnop
    obtain ⟨hf1, hnop'⟩ := ciHas_cons_false c (p' ++ ot.take 6) openTagL hnop2
    have hsplit : (c :: p') ++ (ot ++ (t ++ (ct ++ r))) =
        ((c :: p') ++ ot.take 6) ++ (ot.drop 6 ++ (t ++ (ct ++ r))) := by
      rw [List.append_assoc, ← List.append_assoc (ot.take 6) (ot.drop 6) _,
        List.take_append_drop]
    have hstart : ciStarts openTagL (c :: (p' ++ (ot ++ (t ++ (ct ++ r))))) =
        ciStarts openTagL (c :: (p' ++ ot.take 6)) := by
      show ciStarts openTagL ((c :: p') ++ (ot ++ (t ++ (ct ++ r)))) =
        ciStarts openTagL ((c :: p') ++ ot.take 6)
      rw [hsplit]
      refine ciStarts_append_left_of_le openTagL _ _ ?_
      rw [show (openTagL : List Char).length = 7 from rfl]
      simp [h6]
    have hfalse : ciStarts openTagL (c :: (p' ++ (ot ++ (t ++ (ct ++ r))))) = false := by
      rw [hstart]
      exact hf1
    show findTitle (c :: (p' ++ (ot ++ (t ++ (ct ++ r))))) = some t
    rw [findTitle_skip c _ hfalse]
    exact ih ot t ct r hot hct hnop' hnoc hlt

theorem extractTitle_none (s : String) (h : ciHas s.data openTagL = false) :
    extractTitle s = none := by
  rw [extractTitle, findTitle_none s.data h]
  rfl

theorem extractTitle_exact (p ot t ct r : List Char)
    (hot : ciEqL openTagL ot = true) (hct : ciEqL closeTagL ct = true)
    (hnop : ciHas (p ++ ot.take 6) openTagL = false)
    (hnoc : ciHas (t ++ ct.take 7) closeTagL = false)
    (hlt : ∀ ch ∈ t, isLineTerm ch = false) :
    extractTitle ⟨p ++ (ot ++ (t ++ (ct ++ r)))⟩ = some ⟨t⟩ := by
  rw [extractTitle]
  show (findTitle (p ++ (ot ++ (t ++ (ct ++ r))))).map (fun l => (⟨l⟩ : String)) = some ⟨t⟩
  rw [findTitle_exact p ot t ct r hot hct hnop hnoc hlt]
  rfl

/-! ## Tool layer helper lemmas -/

theorem checkApiKey_some (k : String) (hk : k.isEmpty = false) :
    checkApiKey (some k) = none := by
  simp [checkApiKey, envTruthy, hk]

theorem keyDisplay_some (k : String) (hk : k.isEmpty = false) :
    keyDisplay (some k) = substr8 k ++ "..." := by
  simp [keyDisplay, envTruthy, hk]

theorem strIncludes_append_right (s t p : String) (h : strIncludes t p = true) :
    strIncludes (s ++ t) p = true := by
  rw [strIncludes, strData_append]
  exact chHas_append_left _ _ _ h

theorem strIncludes_self_append (p t : String) : strIncludes (p ++ t) p = true :=
  strIncludes_of_data _ _ [] t.data (by rw [strData_append]; rfl)

/-! ## Claim theorems -/

/-- C1: with no API key configured in the environment, each of the five tools,
on any schema-valid arguments, returns the one fixed configuration-error
message and performs zero network calls; the result is a constant, so
repeated invocations yield the identical message. -/
theorem c1_no_key_short_circuit (serialNumber registrationNumber : String)
    (format : RespFormat) (upstream : Upstream)
    (hs : serialNumber.length = 8)
    (hr : 7 ≤ registrationNumber.length ∧ registrationNumber.length ≤ 8) :
    runSearchBySerial none serialNumber format upstream = (apiKeyMissingMsg, []) ∧
    runStatus none serialNumber upstream = (apiKeyMissingMsg, []) ∧
    runImage none serialNumber upstream = (apiKeyMissingMsg, []) ∧
    runDocuments none serialNumber = (apiKeyMissingMsg, []) ∧
    runSearchByRegistration none registrationNumber format upstream = (apiKeyMissingMsg, []) := by
  have hv : 8 ≤ serialNumber.length ∧ serialNumber.length ≤ 8 := by omega
  refine ⟨?_, ?_, ?_, ?_, ?_⟩
  · simp only [runSearchBySerial]
    rw [if_pos hv]
    cases format <;> rfl
  · simp only [runStatus]
    rw [if_pos hv]
    rfl
  · simp only [runImage]
    rw [if_pos hv]
    rfl
  · simp only [runDocuments]
    rw [if_pos hv]
    rfl
  · simp only [runSearchByRegistration]
    rw [if_pos hr]
    cases format <;> rfl

theorem c1_witness :
    runSearchBySerial none "12345678" RespFormat.json (fun _ => Except.error "offline") =
      (apiKeyMissingMsg, []) ∧
    runDocuments none "12345678" = (apiKeyMissingMsg, []) :=
  ⟨(c1_no_key_short_circuit "12345678" "1234567" RespFormat.json
      (fun _ => Except.error "offline") (by decide) (by decide)).1,
   (c1_no_key_short_circuit "12345678" "1234567" RespFormat.json
      (fun _ => Except.error "offline") (by decide) (by decide)).2.2.2.1⟩

/-- C3: a serialNumber whose length is not exactly 8 fails each serial-taking
tool's parameter validation with a validation failure message and zero network
calls; a registrationNumber with length outside 7..8 does the same on the
registration tool. -/
theorem c3_validation_short_circuit (apiKey : Option String) (s r : String)
    (format : RespFormat) (upstream : Upstream)
    (hs : s.length ≠ 8) (hr : ¬(7 ≤ r.length ∧ r.length ≤ 8)) :
    runSearchBySerial apiKey s format upstream = (serialValidationMsg, []) ∧
    runStatus apiKey s upstream = (serialValidationMsg, []) ∧
    runImage apiKey s upstream = (serialValidationMsg, []) ∧
    runDocuments apiKey s = (serialValidationMsg, []) ∧
    runSearchByRegistration apiKey r format upstream = (regValidationMsg, []) := by
  have hv : ¬(8 ≤ s.length ∧ s.length ≤ 8) := by omega
  refine ⟨?_, ?_, ?_, ?_, ?_⟩
  · simp only [runSearchBySerial]
    rw [if_neg hv]
  · simp only [runStatus]
    rw [if_neg hv]
  · simp only [runImage]
    rw [if_neg hv]
  · simp only [runDocuments]
    rw [if_neg hv]
  · simp only [runSearchByRegistration]
    rw [if_neg hr]

theorem c3_witness :
    runSearchBySerial (some "testkey1") "1234567" RespFormat.json
      (fun _ => Except.error "offline") = (serialValidationMsg, []) ∧
    runSearchByRegistration (some "testkey1") "123456789" RespFormat.json
      (fun _ => Except.error "offline") = (regValidationMsg, []) :=
  ⟨(c3_validation_short_circuit (some "testkey1") "1234567" "123456789" RespFormat.json
      (fun _ => Except.error "offline") (by decide) (by decide)).1,
   (c3_validation_short_circuit (some "testkey1") "1234567" "123456789" RespFormat.json
      (fun _ => Except.error "offline") (by decide) (by decide)).2.2.2.2⟩

/-- C4: parameter validation checks only length: any 8-character serialNumber
string (digits or not) passes validation and the handler interpolates it
verbatim into the upstream URL; likewise any 7- or 8-character
registrationNumber string. -/
theorem c4_length_only_validation (k s r : String) (upstream : Upstream)
    (hk : k.isEmpty = false) (hs : s.length = 8) (hr : 7 ≤ r.length ∧ r.length ≤ 8) :
    runSearchBySerial (some k) s .json upstream =
      searchBySerialExecute (some k) s .json upstream ∧
    (searchBySerialExecute (some k) s .json upstream).2 =
      [⟨TSDR_BASE_URL ++ "/casestatus/sn" ++ s ++ "/info.json", "GET", getHeaders (some k)⟩] ∧
    runSearchByRegistration (some k) r .json upstream =
      searchByRegistrationExecute (some k) r .json upstream ∧
    (searchByRegistrationExecute (some k) r .json upstream).2 =
      [⟨TSDR_BASE_URL ++ "/casestatus/rn" ++ r ++ "/info.json", "GET", getHeaders (some k)⟩] := by
  refine ⟨?_, ?_, ?_, ?_⟩
  · simp only [runSearchBySerial]
    rw [if_pos (by omega)]
  · simp only [searchBySerialExecute, checkApiKey_some k hk]
    repeat' split
    all_goals rw [show ("/info.json" : String) = "/info." ++ "json" from by decide,
      ← strAppend_assoc]
  · simp only [runSearchByRegistration]
    rw [if_pos hr]
  · simp only [searchByRegistrationExecute, checkApiKey_some k hk]
    repeat' split
    all_goals rw [show ("/info.json" : String) = "/info." ++ "json" from by decide,
      ← strAppend_assoc]

theorem c4_witness :
    (searchBySerialExecute (some "testkey1") "abcd!@#$" RespFormat.json
      (fun _ => Except.error "offline")).2 =
      [⟨TSDR_BASE_URL ++ "/casestatus/sn" ++ "abcd!@#$" ++ "/info.json", "GET",
        getHeaders (some "testkey1")⟩] ∧
    (searchByRegistrationExecute (some "testkey1") "12x45z7" RespFormat.json
      (fun _ => Except.error "offline")).2 =
      [⟨TSDR_BASE_URL ++ "/casestatus/rn" ++ "12x45z7" ++ "/info.json", "GET",
        getHeaders (some "testkey1")⟩] :=
  ⟨(c4_length_only_validation "testkey1" "abcd!@#$" "12x45z7"
      (fun _ => Except.error "offline") (by decide) (by decide) (by decide)).2.1,
   (c4_length_only_validation "testkey1" "abcd!@#$" "12x45z7"
      (fun _ => Except.error "offline") (by decide) (by decide) (by decide)).2.2.2⟩

/-- C5 counterexample: the documents tool's returned payload is not the bare
bundle URL string; it is a longer message that contains it. -/
theorem c5_counterexample :
    (runDocuments (some "testkey1") "72131351").1 ≠
      "https://tsdrapi.uspto.gov/ts/cd/casedocs/bundle.pdf?sn=72131351" := by
  decide

/-- C5 (amended): for serialNumber "72131351" with an API key configured, the
documents tool's payload contains exactly the URL string
`https://tsdrapi.uspto.gov/ts/cd/casedocs/bundle.pdf?sn=72131351`, and the
handler performs no network call for any input. -/
theorem c5_documents_url (k : String) (hk : k.isEmpty = false) :
    strIncludes (runDocuments (some k) "72131351").1
      "https://tsdrapi.uspto.gov/ts/cd/casedocs/bundle.pdf?sn=72131351" = true ∧
    ∀ (apiKey : Option String) (s : String), (runDocuments apiKey s).2 = [] := by
  constructor
  · have h1 : runDocuments (some k) "72131351" = documentsExecute (some k) "72131351" := by
      simp only [runDocuments]
      rw [if_pos (by decide)]
    rw [h1]
    simp only [documentsExecute, checkApiKey_some k hk]
    decide
  · intro apiKey s
    simp only [runDocuments]
    by_cases h : 8 ≤ s.length ∧ s.length ≤ 8
    · rw [if_pos h]
      simp only [documentsExecute]
      cases hc : checkApiKey apiKey <;> rfl
    · rw [if_neg h]

theorem c5_witness :
    strIncludes (runDocuments (some "testkey1") "72131351").1
      "https://tsdrapi.uspto.gov/ts/cd/casedocs/bundle.pdf?sn=72131351" = true ∧
    (runDocuments none "x").2 = [] :=
  ⟨(c5_documents_url "testkey1" (by decide)).1,
   (c5_documents_url "testkey1" (by decide)).2 none "x"⟩

/-- C6 counterexample: on a 2xx HEAD response the image tool's result is not
the bare URL string of the form base/rawImage/serial; it is a longer message
containing it. -/
theorem c6_counterexample :
    (runImage (some "testkey1") "12345678" (fun _ => Except.ok ⟨200, "OK", ""⟩)).1 ≠
      "https://tsdrapi.uspto.gov/ts/cd/rawImage/12345678" := by
  decide

/-- C6 (amended): for every valid serialNumber the image tool issues one HEAD
request to base/rawImage/serial; on a 2xx response the result is a text
message containing the URL base/rawImage/serial, and on every non-2xx
response it is the "No image found" message rather than an exception. -/
theorem c6_image_head_probe (k s : String) (resp : FetchResponse)
    (hk : k.isEmpty = false) (hs : s.length = 8) :
    (runImage (some k) s (fun _ => Except.ok resp)).2 =
      [⟨TSDR_BASE_URL ++ "/rawImage/" ++ s, "HEAD", getHeaders (some k)⟩] ∧
    (resp.ok = true → strIncludes (runImage (some k) s (fun _ => Except.ok resp)).1
      (TSDR_BASE_URL ++ "/rawImage/" ++ s) = true) ∧
    (resp.ok = false → (runImage (some k) s (fun _ => Except.ok resp)).1 =
      "No image found for trademark serial number: " ++ s) := by
  have hrun : runImage (some k) s (fun _ => Except.ok resp) =
      imageExecute (some k) s (fun _ => Except.ok resp) := by
    simp only [runImage]
    rw [if_pos (by omega)]
  refine ⟨?_, ?_, ?_⟩
  · rw [hrun]
    simp only [imageExecute, checkApiKey_some k hk]
    by_cases ho : resp.ok <;> simp [ho]
  · intro ho
    rw [hrun]
    simp only [imageExecute, checkApiKey_some k hk, ho]
    refine strIncludes_of_data _ _ ("Trademark image URL for serial number " ++ s ++ ": ").data
      ("\n\nYou can view this image by opening the URL in a web browser." : String).data ?_
    simp [strData_append, List.append_assoc]
  · intro ho
    rw [hrun]
    simp only [imageExecute, checkApiKey_some k hk, ho]
    rfl

theorem c6_witness :
    (runImage (some "testkey1") "12345678" (fun _ => Except.ok ⟨200, "OK", ""⟩)).2 =
      [⟨TSDR_BASE_URL ++ "/rawImage/" ++ "12345678", "HEAD", getHeaders (some "testkey1")⟩] ∧
    strIncludes (runImage (some "testkey1") "12345678"
      (fun _ => Except.ok ⟨200, "OK", ""⟩)).1
      (TSDR_BASE_URL ++ "/rawImage/" ++ "12345678") = true ∧
    (runImage (some "testkey1") "12345678" (fun _ => Except.ok ⟨404, "Not Found", ""⟩)).1 =
      "No image found for trademark serial number: " ++ "12345678" :=
  ⟨(c6_image_head_probe "testkey1" "12345678" ⟨200, "OK", ""⟩ (by decide) (by decide)).1,
   (c6_image_head_probe "testkey1" "12345678" ⟨200, "OK", ""⟩ (by decide) (by decide)).2.1
     (by decide),
   (c6_image_head_probe "testkey1" "12345678" ⟨404, "Not Found", ""⟩ (by decide)
     (by decide)).2.2 (by decide)⟩

theorem strIncludes_mid (a p b : String) : strIncludes ((a ++ p) ++ b) p = true :=
  strIncludes_of_data _ _ a.data b.data (by simp [strData_append, List.append_assoc])

theorem auth_msg_contains (pfx k : String) (hk : k.isEmpty = false) :
    strIncludes (pfx ++ authMessage (some k)) (substr8 k ++ "...") = true ∧
    strIncludes (pfx ++ authMessage (some k)) "APIhelp@uspto.gov" = true := by
  constructor
  · simp only [authMessage, keyDisplay_some k hk]
    exact strIncludes_append_right _ _ _ (strIncludes_mid _ _ _)
  · simp only [authMessage]
    exact strIncludes_append_right _ _ _ (strIncludes_append_right _ _ _ (by decide))

/-- C2 counterexample: on a non-2xx response without the marker substring the
tool's returned string is not the bare generic message; it carries the
handler's fetch-error prefix in front of it. -/
theorem c2_counterexample :
    (searchBySerialExecute (some "testkey1") "12345678" .json
      (fun _ => Except.ok ⟨500, "Internal Server Error", "boom"⟩)).1 ≠
      "USPTO API returned 500: Internal Server Error. Error: boom" := by
  decide

/-- C2 (amended): for each info-fetching tool on a non-2xx upstream response:
if the body contains "need to register for an API key" the result contains the
truncated key prefix (first 8 characters plus "...") and the literal support
address APIhelp@uspto.gov; for every other non-2xx response the result is the
tool's fixed fetch-error prefix followed by the generic message
"USPTO API returned {status}: {statusText}. Error: {body}". -/
theorem c2_upstream_error_mapping (k serial reg : String) (resp : FetchResponse)
    (hk : k.isEmpty = false) (hnok : resp.ok = false) :
    (strIncludes resp.body apiKeyMarker = true →
      (strIncludes (searchBySerialExecute (some k) serial .json (fun _ => Except.ok resp)).1
        (substr8 k ++ "...") = true ∧
       strIncludes (searchBySerialExecute (some k) serial .json (fun _ => Except.ok resp)).1
        "APIhelp@uspto.gov" = true ∧
       strIncludes (searchByRegistrationExecute (some k) reg .json (fun _ => Except.ok resp)).1
        (substr8 k ++ "...") = true ∧
       strIncludes (searchByRegistrationExecute (some k) reg .json (fun _ => Except.ok resp)).1
        "APIhelp@uspto.gov" = true ∧
       strIncludes (statusExecute (some k) serial (fun _ => Except.ok resp)).1
        (substr8 k ++ "...") = true ∧
       strIncludes (statusExecute (some k) serial (fun _ => Except.ok resp)).1
        "APIhelp@uspto.gov" = true)) ∧
    (strIncludes resp.body apiKeyMarker = false →
      ((searchBySerialExecute (some k) serial .json (fun _ => Except.ok resp)).1 =
        "Error fetching trademark data: " ++
          genericUpstreamMsg resp.status resp.statusText resp.body ∧
       (searchByRegistrationExecute (some k) reg .json (fun _ => Except.ok resp)).1 =
        "Error fetching trademark data by registration number: " ++
          genericUpstreamMsg resp.status resp.statusText resp.body ∧
       (statusExecute (some k) serial (fun _ => Except.ok resp)).1 =
        "Error fetching trademark status: " ++
          genericUpstreamMsg resp.status resp.statusText resp.body)) := by
  constructor
  · intro hm
    have h1 : (searchBySerialExecute (some k) serial .json (fun _ => Except.ok resp)).1 =
        "Error fetching trademark data: " ++ authMessage (some k) := by
      simp only [searchBySerialExecute, checkApiKey_some k hk, hnok, hm]
      rfl
    have h2 : (searchByRegistrationExecute (some k) reg .json (fun _ => Except.ok resp)).1 =
        "Error fetching trademark data by registration number: " ++ authMessage (some k) := by
      simp only [searchByRegistrationExecute, checkApiKey_some k hk, hnok, hm]
      rfl
    have h3 : (statusExecute (some k) serial (fun _ => Except.ok resp)).1 =
        "Error fetching trademark status: " ++ authMessage (some k) := by
      simp only [statusExecute, checkApiKey_some k hk, hnok, hm]
      rfl
    rw [h1, h2, h3]
    exact ⟨(auth_msg_contains _ k hk).1, (auth_msg_contains _ k hk).2,
      (auth_msg_contains _ k hk).1, (auth_msg_contains _ k hk).2,
      (auth_msg_contains _ k hk).1, (auth_msg_contains _ k hk).2⟩
  · intro hm
    refine ⟨?_, ?_, ?_⟩
    · simp only [searchBySerialExecute, checkApiKey_some k hk, hnok, hm]
      rfl
    · simp only [searchByRegistrationExecute, checkApiKey_some k hk, hnok, hm]
      rfl
    · simp only [statusExecute, checkApiKey_some k hk, hnok, hm]
      rfl

theorem c2_witness :
    strIncludes (searchBySerialExecute (some "testkey1") "12345678" .json
      (fun _ => Except.ok ⟨401, "Unauthorized", "you need to register for an API key first"⟩)).1
      (substr8 "testkey1" ++ "...") = true ∧
    strIncludes (statusExecute (some "testkey1") "12345678"
      (fun _ => Except.ok ⟨401, "Unauthorized", "you need to register for an API key first"⟩)).1
      "APIhelp@uspto.gov" = true ∧
    (statusExecute (some "testkey1") "12345678"
      (fun _ => Except.ok ⟨500, "Internal Server Error", "boom"⟩)).1 =
      "Error fetching trademark status: " ++
        genericUpstreamMsg 500 "Internal Server Error" "boom" :=
  ⟨((c2_upstream_error_mapping "testkey1" "12345678" "1234567"
      ⟨401, "Unauthorized", "you need to register for an API key first"⟩
      (by decide) (by decide)).1 (by decide)).1,
   ((c2_upstream_error_mapping "testkey1" "12345678" "1234567"
      ⟨401, "Unauthorized", "you need to register for an API key first"⟩
      (by decide) (by decide)).1 (by decide)).2.2.2.2.2,
   ((c2_upstream_error_mapping "testkey1" "12345678" "1234567"
      ⟨500, "Internal Server Error", "boom"⟩
      (by decide) (by decide)).2 (by decide)).2.2⟩

/-- C7: on an HTTP 2xx response whose body is valid JSON, search_by_serial
with format json returns the body re-serialized with the stable two-space
formatting, and parsing the returned text reproduces the original structure. -/
theorem c7_json_roundtrip (k serial : String) (resp : FetchResponse) (j : Json)
    (hk : k.isEmpty = false) (hok : resp.ok = true) (hbody : parseJson resp.body = some j) :
    (searchBySerialExecute (some k) serial .json (fun _ => Except.ok resp)).1 =
      jsonStringify2 j ∧
    parseJson (jsonStringify2 j) = some j := by
  constructor
  · simp only [searchBySerialExecute, checkApiKey_some k hk, hok, hbody]
    rfl
  · exact parseJson_stringify2 j

theorem c7_witness :
    parseJson "[1, 2]" = some (.arr (.cons (.num 1) (.cons (.num 2) .nil))) ∧
    (searchBySerialExecute (some "testkey1") "12345678" .json
      (fun _ => Except.ok ⟨200, "OK", "[1, 2]"⟩)).1 =
      jsonStringify2 (.arr (.cons (.num 1) (.cons (.num 2) .nil))) :=
  ⟨by rfl,
   (c7_json_roundtrip "testkey1" "12345678" ⟨200, "OK", "[1, 2]"⟩
      (.arr (.cons (.num 1) (.cons (.num 2) .nil))) (by decide) (by decide) (by rfl)).1⟩

/-- Shape of a successful status lookup: one GET to the content URL, and a
report containing the extracted title and the content URL. -/
theorem statusExecute_ok (k serial : String) (resp : FetchResponse)
    (hk : k.isEmpty = false) (hok : resp.ok = true) :
    statusExecute (some k) serial (fun _ => Except.ok resp) =
      ("Trademark Status Report for Serial Number: " ++ serial ++ "\n\nTitle: " ++
        ((extractTitle resp.body).getD "No title found") ++
        "\n\nFull HTML content available at: " ++
        (TSDR_BASE_URL ++ "/casestatus/sn" ++ serial ++ "/content") ++
        "\n\nNote: This tool returns the HTML content from the USPTO. For structured data, use trademark_search_by_serial instead.",
       [⟨TSDR_BASE_URL ++ "/casestatus/sn" ++ serial ++ "/content", "GET",
         getHeaders (some k)⟩]) := by
  simp only [statusExecute, checkApiKey_some k hk, hok]
  rfl

/-- C8: for a valid serialNumber, the status tool fetches exactly the URL
base/casestatus/sn{serial}/content (no file extension) and, on a 2xx response,
its payload contains the extracted HTML title and a link to the content URL. -/
theorem c8_status_fetch_and_payload (k serial : String) (resp : FetchResponse)
    (hk : k.isEmpty = false) (hs : serial.length = 8) (hok : resp.ok = true) :
    (runStatus (some k) serial (fun _ => Except.ok resp)).2 =
      [⟨TSDR_BASE_URL ++ "/casestatus/sn" ++ serial ++ "/content", "GET",
        getHeaders (some k)⟩] ∧
    strIncludes (runStatus (some k) serial (fun _ => Except.ok resp)).1
      ((extractTitle resp.body).getD "No title found") = true ∧
    strIncludes (runStatus (some k) serial (fun _ => Except.ok resp)).1
      (TSDR_BASE_URL ++ "/casestatus/sn" ++ serial ++ "/content") = true := by
  have hrun : runStatus (some k) serial (fun _ => Except.ok resp) =
      statusExecute (some k) serial (fun _ => Except.ok resp) := by
    simp only [runStatus]
    rw [if_pos (by omega)]
  refine ⟨?_, ?_, ?_⟩
  · rw [hrun, statusExecute_ok k serial resp hk hok]
  · rw [hrun, statusExecute_ok k serial resp hk hok]
    refine strIncludes_of_data _ _
      ("Trademark Status Report for Serial Number: " ++ serial ++ "\n\nTitle: ").data
      ("\n\nFull HTML content available at: " ++
        (TSDR_BASE_URL ++ "/casestatus/sn" ++ serial ++ "/content") ++
        "\n\nNote: This tool returns the HTML content from the USPTO. For structured data, use trademark_search_by_serial instead." : String).data ?_
    simp [strData_append, List.append_assoc]
  · rw [hrun, statusExecute_ok k serial resp hk hok]
    refine strIncludes_of_data _ _
      ("Trademark Status Report for Serial Number: " ++ serial ++ "\n\nTitle: " ++
        ((extractTitle resp.body).getD "No title found") ++
        "\n\nFull HTML content available at: ").data
      ("\n\nNote: This tool returns the HTML content from the USPTO. For structured data, use trademark_search_by_serial instead." : String).data ?_
    simp [strData_append, List.append_assoc]

theorem c8_witness :
    (runStatus (some "testkey1") "12345678"
      (fun _ => Except.ok ⟨200, "OK", "<title>Hi</title>"⟩)).2 =
      [⟨TSDR_BASE_URL ++ "/casestatus/sn" ++ "12345678" ++ "/content", "GET",
        getHeaders (some "testkey1")⟩] ∧
    strIncludes (runStatus (some "testkey1") "12345678"
      (fun _ => Except.ok ⟨200, "OK", "<title>Hi</title>"⟩)).1
      ((extractTitle "<title>Hi</title>").getD "No title found") = true :=
  ⟨(c8_status_fetch_and_payload "testkey1" "12345678" ⟨200, "OK", "<title>Hi</title>"⟩
      (by decide) (by decide) (by decide)).1,
   (c8_status_fetch_and_payload "testkey1" "12345678" ⟨200, "OK", "<title>Hi</title>"⟩
      (by decide) (by decide) (by decide)).2.1⟩

/-- C10: on a 2xx HTML body with no (case-insensitive) title tag, the status
tool still succeeds and its payload uses the fallback text "No title found" as
the title; when several title tags are present, the first (case-insensitive)
match supplies the extracted content. -/
theorem c10_title_fallback_and_first_match (k serial : String) (body1 : String)
    (p ot t ct r : List Char)
    (hk : k.isEmpty = false) (hs : serial.length = 8)
    (h1 : ciHas body1.data openTagL = false)
    (hot : ciEqL openTagL ot = true) (hct : ciEqL closeTagL ct = true)
    (hnop : ciHas (p ++ ot.take 6) openTagL = false)
    (hnoc : ciHas (t ++ ct.take 7) closeTagL = false)
    (hlt : ∀ ch ∈ t, isLineTerm ch = false) :
    (extractTitle body1 = none ∧
     strIncludes (runStatus (some k) serial
       (fun _ => Except.ok ⟨200, "OK", body1⟩)).1 "Title: No title found" = true) ∧
    (extractTitle ⟨p ++ (ot ++ (t ++ (ct ++ r)))⟩ = some ⟨t⟩ ∧
     strIncludes (runStatus (some k) serial
       (fun _ => Except.ok ⟨200, "OK", ⟨p ++ (ot ++ (t ++ (ct ++ r)))⟩⟩)).1
       ("Title: " ++ (⟨t⟩ : String)) = true) := by
  have e1 : ("\n\nTitle: " : String).data =
      ("\n\n" : String).data ++ ("Title: " : String).data := rfl
  constructor
  · refine ⟨extractTitle_none body1 h1, ?_⟩
    have hrun : runStatus (some k) serial (fun _ => Except.ok ⟨200, "OK", body1⟩) =
        statusExecute (some k) serial (fun _ => Except.ok ⟨200, "OK", body1⟩) := by
      simp only [runStatus]
      rw [if_pos (by omega)]
    rw [hrun, statusExecute_ok k serial ⟨200, "OK", body1⟩ hk rfl]
    have hgd : (extractTitle ({ status := 200, statusText := "OK", body := body1 } :
        FetchResponse).body).getD "No title found" = "No title found" := by
      rw [show ({ status := 200, statusText := "OK", body := body1 } :
        FetchResponse).body = body1 from rfl, extractTitle_none body1 h1]
      rfl
    rw [hgd]
    refine strIncludes_of_data _ _
      (("Trademark Status Report for Serial Number: " ++ serial).data ++
        ("\n\n" : String).data)
      (("\n\nFull HTML content available at: " ++
        (TSDR_BASE_URL ++ "/casestatus/sn" ++ serial ++ "/content") ++
        "\n\nNote: This tool returns the HTML content from the USPTO. For structured data, use trademark_search_by_serial instead." : String).data) ?_
    rw [show ("Title: No title found" : String).data =
      ("Title: " : String).data ++ ("No title found" : String).data from rfl]
    simp [strData_append, List.append_assoc, e1]
  · refine ⟨extractTitle_exact p ot t ct r hot hct hnop hnoc hlt, ?_⟩
    have hrun : runStatus (some k) serial
        (fun _ => Except.ok ⟨200, "OK", ⟨p ++ (ot ++ (t ++ (ct ++ r)))⟩⟩) =
        statusExecute (some k) serial
          (fun _ => Except.ok ⟨200, "OK", ⟨p ++ (ot ++ (t ++ (ct ++ r)))⟩⟩) := by
      simp only [runStatus]
      rw [if_pos (by omega)]
    rw [hrun, statusExecute_ok k serial ⟨200, "OK", ⟨p ++ (ot ++ (t ++ (ct ++ r)))⟩⟩ hk rfl]
    have hgd : (extractTitle (FetchResponse.mk 200 "OK"
        (⟨p ++ (ot ++ (t ++ (ct ++ r)))⟩ : String)).body).getD
        "No title found" = (⟨t⟩ : String) := by
      rw [show (FetchResponse.mk 200 "OK"
          (⟨p ++ (ot ++ (t ++ (ct ++ r)))⟩ : String)).body =
          ⟨p ++ (ot ++ (t ++ (ct ++ r)))⟩ from rfl,
        extractTitle_exact p ot t ct r hot hct hnop hnoc hlt]
      rfl
    rw [hgd]
    refine strIncludes_of_data _ _
      (("Trademark Status Report for Serial Number: " ++ serial).data ++
        ("\n\n" : String).data)
      (("\n\nFull HTML content available at: " ++
        (TSDR_BASE_URL ++ "/casestatus/sn" ++ serial ++ "/content") ++
        "\n\nNote: This tool returns the HTML content from the USPTO. For structured data, use trademark_search_by_serial instead." : String).data) ?_
    rw [show ("Title: " ++ (⟨t⟩ : String)).data = ("Title: " : String).data ++ t from by
      rw [strData_append]]
    simp [strData_append, List.append_assoc, e1]

theorem c10_witness :
    extractTitle "<head></head>" = none ∧
    extractTitle ⟨("x<ti" : String).data ++ (("<TiTlE>" : String).data ++
      (("First" : String).data ++ (("</title>" : String).data ++
        ("<title>Second</title>" : String).data)))⟩ = some ⟨("First" : String).data⟩ :=
  ⟨((c10_title_fallback_and_first_match "testkey1" "12345678" "<head></head>"
      ("x<ti" : String).data ("<TiTlE>" : String).data ("First" : String).data
      ("</title>" : String).data ("<title>Second</title>" : String).data
      (by decide) (by decide) (by decide) (by decide) (by decide) (by decide)
      (by decide) (by decide)).1).1,
   ((c10_title_fallback_and_first_match "testkey1" "12345678" "<head></head>"
      ("x<ti" : String).data ("<TiTlE>" : String).data ("First" : String).data
      ("</title>" : String).data ("<title>Second</title>" : String).data
      (by decide) (by decide) (by decide) (by decide) (by decide) (by decide)
      (by decide) (by decide)).2).1⟩

set_option maxRecDepth 8192 in
/-- C9: a GET request to the HTTP front end's root path "/" does not fall
through to the 404 branch: it returns HTTP 200 with a JSON service descriptor
carrying the keys name, version, description and endpoints, the latter listing
/health and /mcp. -/
theorem c9_root_route (now : String) :
    handleHttpRequest now "GET" "/" = .reply 200 "application/json" rootBody ∧
    handleHttpRequest now "GET" "/" ≠ .reply 404 "application/json" notFoundBody ∧
    parseJson rootBody = some (.obj (.cons "name" (.str "trademark-mcp-server")
      (.cons "version" (.str "1.0.0")
      (.cons "description" (.str "USPTO Trademark MCP Server")
      (.cons "endpoints" (.obj (.cons "health" (.str "/health")
        (.cons "mcp" (.str "/mcp") .nil))) .nil))))) := by
  refine ⟨rfl, ?_, by rfl⟩
  intro h
  rw [show handleHttpRequest now "GET" "/" =
    RouteResult.reply 200 "application/json" rootBody from rfl] at h
  simp at h

end TrademarkMcp
